import Mathlib

/-!
# botstate: the state engine and the message buffer

A shallow embedding of `botstate.go` (package `botstate`): the functions
`ExecuteState`, `executeCallback`, `executeCallbackFromState`, `AddMessage` and
`GetMessages` are translated statement by statement.  The `*Bot` receiver that the Go
code mutates is threaded explicitly: every function takes the bot and returns the
bot it leaves behind together with its Go return values.

`botstate.go` uses, but does not declare, the type `BotData` with its methods, and the
standard library package `encoding/json`.  `BotData` is modelled from the
specification (sections 3 and 6).  The two `encoding/json` functions are a
parameter of the message buffer functions, and `goJSON` is the package itself at
the type `[]string`, on Go strings held as byte sequences.
-/

set_option autoImplicit false

namespace Botstate

/-- A Go `error` value, identified with its message; `nil` is `none` of `Option Error`. -/
abbrev Error := String

/-- The Go type `Data`, a `map[string]string`, as an association list with unique keys
kept by `assign`. -/
abbrev Data := List (String × String)

/-- Map indexing `m[k]`: the stored value, or the empty string when the key is absent. -/
def lookup : Data → String → String
  | [], _ => ""
  | (k, v) :: rest, key => if k = key then v else lookup rest key

/-- Map assignment `m[k] = v`: overwrites the entry of `k` or adds one. -/
def assign : Data → String → String → Data
  | [], key, val => [(key, val)]
  | (k, v) :: rest, key, val =>
    if k = key then (key, val) :: rest else (k, v) :: assign rest key val

/-- Merging the map `kv` into `m`, each key of `kv` overwriting the one of `m`. -/
def merge (m kv : Data) : Data :=
  kv.foldl (fun acc p => assign acc p.1 p.2) m

/-- Modelled from the spec: the type `BotData` is used by `botstate.go` (fields `UserID`
and `Current`, methods `SetCurrentState`, `GetStateWithCallback`,
`SetStateWithCallback`, `SetData`) but declared elsewhere.  Following section 3 it is
the record of the selected user: the user identifier and the string-keyed data, in
which the logical fields `current_state` and `state_with_callback` live under the
keys of these names (the doc comment of `ExecuteState` places both "in the user's
data"). -/
structure BotData where
  UserID : String
  Current : Data
deriving DecidableEq, Repr

namespace BotData

/-- Modelled from the spec: `GetField(user, key) → string`, "empty string if absent". -/
def GetField (d : BotData) (key : String) : String :=
  lookup d.Current key

/-- Modelled from the spec: `GetCurrentState(user) → string`. -/
def GetCurrentState (d : BotData) : String :=
  d.GetField "current_state"

/-- Modelled from the spec: `SetData(user, mapping) → error`, "merges/overwrites keys".
Section 6 gives the operation an `error` result and leaves open when the
persistence layer fails: `outcome` is the answer of the persistence layer to this
operation, `none` for a success and `some e` for a failure with error `e`.  A
failed write reports its error and stores nothing. -/
def SetData (d : BotData) (kv : Data) (outcome : Option Error) : Option Error × BotData :=
  match outcome with
  | some e => (some e, d)
  | none => (none, { d with Current := merge d.Current kv })

/-- Modelled from the spec: `SetCurrentState(user, name) → error`. -/
def SetCurrentState (d : BotData) (name : String) (outcome : Option Error) :
    Option Error × BotData :=
  d.SetData [("current_state", name)] outcome

/-- Modelled from the spec: `GetStateWithCallback(user) → (string, error)`; the empty
string means that no callback is pending.  A failed read reports its error with the
empty string. -/
def GetStateWithCallback (d : BotData) (outcome : Option Error) : String × Option Error :=
  match outcome with
  | some e => ("", some e)
  | none => (d.GetField "state_with_callback", none)

/-- Modelled from the spec: `SetStateWithCallback(user, name) → error`. -/
def SetStateWithCallback (d : BotData) (name : String) (outcome : Option Error) :
    Option Error × BotData :=
  d.SetData [("state_with_callback", name)] outcome

end BotData

/-- The Go type `func(bot *Bot) bool` of `State.Executes` and `State.Callback`.  The
function receives the bot and may write its user data; the state collection is
"defined once at engine construction, immutable thereafter" (section 3), so the
function is a map from the user data it finds to its boolean and the user data it
leaves. -/
abbrev Handler := BotData → Bool × BotData

/-- The Go struct `State`; a `nil` function field is `none`. -/
structure State where
  Name : String
  Executes : Option Handler
  Callback : Option Handler
  Next : String

/-- One invocation of a function field of a state: which field, of the state of
which name, and the user data the function found when it was called. -/
inductive Event where
  | callback (name : String) (seen : BotData)
  | action (name : String) (seen : BotData)

/-- The Go struct `Bot`, with two ghost fields absent from the Go struct.  `Faults` is
the schedule of the answers of the persistence layer to the coming store operations
of the engine, first operation first; when the schedule is exhausted every
operation succeeds.  `Log` lists the invocations of `Callback` and `Executes`
functions made so far, oldest first. -/
structure Bot where
  States : List State
  Data : BotData
  Faults : List (Option Error)
  Log : List Event

/-- The Go function `New`. -/
def New (states : List State) : Bot :=
  { States := states, Data := { UserID := "", Current := [] }, Faults := [], Log := [] }

namespace Bot

/-- The persistence layer reports no failure: every scheduled answer is a success. -/
def Healthy (b : Bot) : Prop :=
  ∀ f ∈ b.Faults, f = none

instance (b : Bot) : Decidable b.Healthy := by
  unfold Healthy; infer_instance

/-- The logical field `current_state` of the user data of the bot. -/
def currentState (b : Bot) : String :=
  b.Data.GetCurrentState

/-- The logical field `state_with_callback` of the user data of the bot. -/
def stateWithCallback (b : Bot) : String :=
  b.Data.GetField "state_with_callback"

/-- The buffer of the messages: the field `messages` of the user data of the bot. -/
def messages (b : Bot) : String :=
  b.Data.GetField "messages"

/-- The answer of the persistence layer to the coming store operation. -/
def answer (b : Bot) : Option Error :=
  b.Faults.headD none

/-- The call `b.Data.SetData(kv)`, answered by the next scheduled answer. -/
def SetData (b : Bot) (kv : Botstate.Data) : Option Error × Bot :=
  let r := b.Data.SetData kv b.answer
  (r.1, { b with Data := r.2, Faults := b.Faults.tail })

/-- The call `b.Data.SetCurrentState(name)`, answered by the next scheduled answer. -/
def SetCurrentState (b : Bot) (name : String) : Option Error × Bot :=
  let r := b.Data.SetCurrentState name b.answer
  (r.1, { b with Data := r.2, Faults := b.Faults.tail })

/-- The call `b.Data.GetStateWithCallback()`, answered by the next scheduled answer. -/
def GetStateWithCallback (b : Bot) : (String × Option Error) × Bot :=
  (b.Data.GetStateWithCallback b.answer, { b with Faults := b.Faults.tail })

/-- The call `b.Data.SetStateWithCallback(name)`, answered by the next scheduled answer. -/
def SetStateWithCallback (b : Bot) (name : String) : Option Error × Bot :=
  let r := b.Data.SetStateWithCallback name b.answer
  (r.1, { b with Data := r.2, Faults := b.Faults.tail })

/-- The call `f(b)` of a function field of a state. -/
def call (b : Bot) (f : Handler) (ev : BotData → Event) : Bool × Bot :=
  let r := f b.Data
  (r.1, { b with Data := r.2, Log := b.Log ++ [ev b.Data] })

end Bot

/-- The error of `ExecuteState` for a state name without a selected user (`NoActiveUser`). -/
def NoActiveUser (name : String) : Error :=
  "Undefined user to execute state " ++ name ++ "."

/-- The error of `ExecuteState` for a state whose `Executes` is nil (`MissingAction`). -/
def MissingAction (name : String) : Error :=
  "Method to execute in the " ++ name ++ " state is nil."

/-- The error of `ExecuteState` for a name that matches no state (`UnknownState`). -/
def UnknownState (name : String) : Error :=
  "No state to execute with name " ++ name ++ "."

/-- The error of `AddMessage` for an empty list of messages (`EmptyInput`). -/
def EmptyInput : Error :=
  "undefined messages"

/-- The loop of the Go function `executeCallbackFromState` over the states still to
visit: the first state of the given name whose `Callback` is not nil is called and
its boolean returned; `true` when the loop ends. -/
def executeCallbackFromStateLoop (b : Bot) (name : String) : List State → Bool × Bot
  | [] => (true, b)
  | state :: rest =>
    if state.Name = name then
      match state.Callback with
      | some cb => b.call cb (Event.callback state.Name)
      | none => executeCallbackFromStateLoop b name rest
    else executeCallbackFromStateLoop b name rest

/-- The Go function `executeCallbackFromState`. -/
def executeCallbackFromState (b : Bot) (name : String) : Bool × Bot :=
  executeCallbackFromStateLoop b name b.States

/-- The Go function `executeCallback`: the error of `GetStateWithCallback` is
discarded, and the error returned is always nil. -/
def executeCallback (b : Bot) : (Bool × Option Error) × Bot :=
  let g := b.GetStateWithCallback
  let stateWithCallback := g.1.1
  if stateWithCallback ≠ "" then
    let r := executeCallbackFromState g.2 stateWithCallback
    ((r.1, none), r.2)
  else
    ((true, none), g.2)

/-- The statement `if state.Callback != nil` of `ExecuteState` (lines 69 to 75): the
name of the matched state is recorded as `state_with_callback` when the state has a
callback; the result is the error with which the statement returns, if any. -/
def armCallback (b : Bot) (state : State) : Option Error × Bot :=
  match state.Callback with
  | some _ => b.SetStateWithCallback state.Name
  | none => (none, b)

/-- The last statements of `ExecuteState` (lines 77 to 83): the call of `Executes`,
the transition to `Next` and the return; the error of `SetCurrentState` is
discarded. -/
def runExecutes (b : Bot) (state : State) (executes : Handler) :
    (Bool × Option Error) × Bot :=
  let x := b.call executes (Event.action state.Name)
  if x.1 = true ∧ state.Next ≠ "" then
    ((x.1, none), (x.2.SetCurrentState state.Next).2)
  else
    ((x.1, none), x.2)

/-- The statements of `ExecuteState` from the call of `executeCallback` on (lines 59
to 83), for the matched state with its non-nil `Executes`. -/
def executeGated (b : Bot) (state : State) (executes : Handler) :
    (Bool × Option Error) × Bot :=
  let c := executeCallback b
  match c.1.2 with
  | some err => ((false, some err), c.2)
  | none =>
    if c.1.1 = false then
      ((false, none), c.2)
    else
      let w := armCallback c.2 state
      match w.1 with
      | some err => ((false, some err), w.2)
      | none => runExecutes w.2 state executes

/-- The body of the loop of `ExecuteState` for the state whose name matched. -/
def executeMatched (b : Bot) (state : State) : (Bool × Option Error) × Bot :=
  if b.Data.UserID = "" then
    ((false, some (NoActiveUser state.Name)), b)
  else
    match state.Executes with
    | none => ((false, some (MissingAction state.Name)), b)
    | some executes => executeGated (b.SetCurrentState state.Name).2 state executes

/-- The loop of the Go function `ExecuteState` over the states still to visit. -/
def executeStateLoop (b : Bot) (name : String) : List State → (Bool × Option Error) × Bot
  | [] => ((false, some (UnknownState name)), b)
  | state :: rest =>
    if state.Name = name then executeMatched b state
    else executeStateLoop b name rest

/-- The Go function `ExecuteState`. -/
def ExecuteState (b : Bot) (name : String) : (Bool × Option Error) × Bot :=
  executeStateLoop b name b.States

/-- A Go `string` as the sequence of its bytes, each below 256; it need not be valid
UTF-8.  The messages of `AddMessage` and `GetMessages` are Go strings; keys, names
and stored values of the user data are kept as Lean strings, that is as valid
UTF-8 text. -/
abbrev GoString := List Nat

/-- The UTF-8 encoding of one character. -/
def utf8Char (c : Char) : List Nat :=
  if c.toNat < 0x80 then [c.toNat]
  else if c.toNat < 0x800 then [0xC0 + c.toNat / 64, 0x80 + c.toNat % 64]
  else if c.toNat < 0x10000 then
    [0xE0 + c.toNat / 4096, 0x80 + c.toNat / 64 % 64, 0x80 + c.toNat % 64]
  else
    [0xF0 + c.toNat / 262144, 0x80 + c.toNat / 4096 % 64, 0x80 + c.toNat / 64 % 64,
      0x80 + c.toNat % 64]

/-- The Go string of a text: its UTF-8 encoding.  The Go strings of this form are the
valid UTF-8 ones. -/
def utf8 (s : String) : GoString :=
  s.data.flatMap utf8Char

/-- The two functions of the standard library package `encoding/json` that
`botstate.go` calls, at the type `[]string`: `json.Marshal(messages)` and
`json.Unmarshal(data, &messages)`, the latter giving the value left in `messages`
when it returns a nil error.  A nil slice and an empty slice are both the empty
list; the code only marshals non-empty slices. -/
structure JSON where
  Marshal : List GoString → Except Error String
  Unmarshal : String → Except Error (List GoString)

/-- The Go function `GetMessages`; the error of `SetData` is discarded. -/
def GetMessages (c : JSON) (b : Bot) : List GoString × Bot :=
  let m := lookup b.Data.Current "messages"
  let err := c.Unmarshal m
  let b1 := (b.SetData [("messages", "")]).2
  match err with
  | Except.ok messages => (messages, b1)
  | Except.error _ => ([], b1)

/-- The Go function `AddMessage`. -/
def AddMessage (c : JSON) (b : Bot) (messages : List GoString) : Option Error × Bot :=
  if messages.length ≤ 0 then
    (some EmptyInput, b)
  else
    let g := GetMessages c b
    match c.Marshal (g.1 ++ messages) with
    | Except.error err => (some err, g.2)
    | Except.ok j =>
      let s := g.2.SetData [("messages", j)]
      match s.1 with
      | some err => (some err, s.2)
      | none => (none, s.2)

/-! ### The package `encoding/json` at the type `[]string` -/

/-- The double quote character. -/
def dquote : Char := Char.ofNat 34

/-- The backslash character. -/
def bslash : Char := Char.ofNat 92

/-- The character U+FFFD, `utf8.RuneError`, which stands for what is not valid. -/
def runeError : Char := Char.ofNat 0xFFFD

/-- The lower case hexadecimal digit of a number below 16. -/
def hexDigit (n : Nat) : Char :=
  if n < 10 then Char.ofNat (48 + n) else Char.ofNat (87 + n)

/-- The value of a hexadecimal digit, lower or upper case. -/
def hexValue (c : Char) : Option Nat :=
  if 48 ≤ c.toNat ∧ c.toNat ≤ 57 then some (c.toNat - 48)
  else if 97 ≤ c.toNat ∧ c.toNat ≤ 102 then some (c.toNat - 87)
  else if 65 ≤ c.toNat ∧ c.toNat ≤ 70 then some (c.toNat - 55)
  else none

/-- What `json.Marshal` writes for a byte below 0x80 of a string, with the escaping of
HTML characters that `Marshal` applies: the double quote and the backslash take a
backslash; backspace, form feed, line feed, carriage return and tab have their
two-character escape (as of Go 1.22; earlier releases write backspace and form
feed as `\u0008` and `\u000c`, which `Unmarshal` reads alike); the other control
characters and `<`, `>`, `&` are written `\u00XX`; every other byte is written as
it is. -/
def escapeASCII (b : Nat) : List Char :=
  if b = 34 ∨ b = 92 then [bslash, Char.ofNat b]
  else if b = 8 then [bslash, 'b']
  else if b = 12 then [bslash, 'f']
  else if b = 10 then [bslash, 'n']
  else if b = 13 then [bslash, 'r']
  else if b = 9 then [bslash, 't']
  else if b < 0x20 ∨ b = 0x26 ∨ b = 0x3C ∨ b = 0x3E then
    [bslash, 'u', '0', '0', hexDigit (b / 16), hexDigit (b % 16)]
  else [Char.ofNat b]

/-- What `json.Marshal` writes for a character of a string encoded on several bytes:
U+2028 and U+2029 are escaped, every other character is written as it is. -/
def escapeRune (n : Nat) : List Char :=
  if n = 0x2028 then [bslash, 'u', '2', '0', '2', '8']
  else if n = 0x2029 then [bslash, 'u', '2', '0', '2', '9']
  else [Char.ofNat n]

/-- What `json.Marshal` writes for a byte that is not part of a valid UTF-8 encoding:
the escape of U+FFFD. -/
def replacement : List Char := [bslash, 'u', 'f', 'f', 'f', 'd']

/-- A continuation byte of UTF-8. -/
def isCont (b : Nat) : Prop := 0x80 ≤ b ∧ b ≤ 0xBF

instance (b : Nat) : Decidable (isCont b) := by
  unfold isCont; infer_instance

/-- The first two bytes of a three-byte encoding accepted by `utf8.DecodeRune`: no
overlong encoding and no surrogate. -/
def accept3 (b0 b1 : Nat) : Prop :=
  (b0 = 0xE0 ∧ 0xA0 ≤ b1 ∧ b1 ≤ 0xBF) ∨ (b0 = 0xED ∧ 0x80 ≤ b1 ∧ b1 ≤ 0x9F) ∨
  (((0xE1 ≤ b0 ∧ b0 ≤ 0xEC) ∨ b0 = 0xEE ∨ b0 = 0xEF) ∧ isCont b1)

instance (b0 b1 : Nat) : Decidable (accept3 b0 b1) := by
  unfold accept3; infer_instance

/-- The first two bytes of a four-byte encoding accepted by `utf8.DecodeRune`: no
overlong encoding and nothing above U+10FFFF. -/
def accept4 (b0 b1 : Nat) : Prop :=
  (b0 = 0xF0 ∧ 0x90 ≤ b1 ∧ b1 ≤ 0xBF) ∨ (b0 = 0xF4 ∧ 0x80 ≤ b1 ∧ b1 ≤ 0x8F) ∨
  ((0xF1 ≤ b0 ∧ b0 ≤ 0xF3) ∧ isCont b1)

instance (b0 b1 : Nat) : Decidable (accept4 b0 b1) := by
  unfold accept4; infer_instance

/-- The function `utf8.DecodeRuneInString` at a first byte `b0` that is 0x80 or more,
followed by the bytes `rest`: the character and the number of following bytes
that its encoding takes, or `none` when the function returns `RuneError` with
width 1. -/
def decodeRune (b0 : Nat) (rest : List Nat) : Option (Nat × Nat) :=
  match rest with
  | [] => none
  | b1 :: rest1 =>
    if 0xC2 ≤ b0 ∧ b0 ≤ 0xDF ∧ isCont b1 then some ((b0 - 0xC0) * 64 + (b1 - 0x80), 1)
    else
      match rest1 with
      | [] => none
      | b2 :: rest2 =>
        if accept3 b0 b1 ∧ isCont b2 then
          some ((b0 - 0xE0) * 4096 + (b1 - 0x80) * 64 + (b2 - 0x80), 2)
        else
          match rest2 with
          | [] => none
          | b3 :: _ =>
            if accept4 b0 b1 ∧ isCont b2 ∧ isCont b3 then
              some ((b0 - 0xF0) * 262144 + (b1 - 0x80) * 4096 + (b2 - 0x80) * 64
                + (b3 - 0x80), 3)
            else none

/-- The characters that `json.Marshal` writes between the quotes for a Go string; the
first `skip` bytes belong to a character already written and are passed over. -/
def escapeBytes (skip : Nat) : List Nat → List Char
  | [] => []
  | b0 :: rest =>
    match skip with
    | k + 1 => escapeBytes k rest
    | 0 =>
      if b0 < 0x80 then escapeASCII b0 ++ escapeBytes 0 rest
      else
        match decodeRune b0 rest with
        | some (r, size) => escapeRune r ++ escapeBytes size rest
        | none => replacement ++ escapeBytes 0 rest

/-- The JSON text that `json.Marshal` writes for one Go string. -/
def quoteJSON (s : GoString) : List Char :=
  dquote :: escapeBytes 0 s ++ [dquote]

/-- The JSON texts of the strings, separated by commas. -/
def itemsJSON : List GoString → List Char
  | [] => []
  | [s] => quoteJSON s
  | s :: rest => quoteJSON s ++ ',' :: itemsJSON rest

/-- The states of the scanner of `json.Unmarshal` into a `[]string`: `acc` holds the
elements decoded so far, `cur` the characters of the string being read, `hi` a
high surrogate read from a `\u` escape and not yet paired. -/
inductive Scan where
  | top
  | literal (acc : Option (List String)) (k : Nat)
  | opened
  | inString (acc : List String) (cur : List Char) (hi : Option Nat)
  | escaped (acc : List String) (cur : List Char) (hi : Option Nat)
  | hex (acc : List String) (cur : List Char) (hi : Option Nat) (k v : Nat)
  | afterItem (acc : List String)
  | afterComma (acc : List String)
  | finished (acc : List String)
  | failed

/-- The insignificant space of JSON: space, tab, line feed and carriage return. -/
def isSpace (c : Char) : Prop :=
  c.toNat = 32 ∨ c.toNat = 9 ∨ c.toNat = 10 ∨ c.toNat = 13

instance (c : Char) : Decidable (isSpace c) := by
  unfold isSpace; infer_instance

/-- The characters read so far, a high surrogate left unpaired giving U+FFFD. -/
def flush (cur : List Char) (hi : Option Nat) : List Char :=
  match hi with
  | some _ => cur ++ [runeError]
  | none => cur

/-- The unit `rr` of a `\u` escape with no high surrogate waiting: a high surrogate
waits for its pair, a low surrogate alone gives U+FFFD, any other unit is its
character. -/
def freshUnit (acc : List String) (cur : List Char) (rr : Nat) : Scan :=
  if 0xD800 ≤ rr ∧ rr < 0xDC00 then Scan.inString acc cur (some rr)
  else if 0xDC00 ≤ rr ∧ rr < 0xE000 then Scan.inString acc (cur ++ [runeError]) none
  else Scan.inString acc (cur ++ [Char.ofNat rr]) none

/-- The unit `rr` of a `\u` escape: after a waiting high surrogate a low surrogate
completes the pair; otherwise the waiting surrogate gives U+FFFD and the unit is
read afresh. -/
def closeUnit (acc : List String) (cur : List Char) (hi : Option Nat) (rr : Nat) : Scan :=
  match hi with
  | some h =>
    if 0xDC00 ≤ rr ∧ rr < 0xE000 then
      Scan.inString acc
        (cur ++ [Char.ofNat (0x10000 + (h - 0xD800) * 0x400 + (rr - 0xDC00))]) none
    else freshUnit acc (cur ++ [runeError]) rr
  | none => freshUnit acc cur rr

/-- The first character of a value: at the top level (`acc` is `none`) only `null` is
accepted besides the array, within the array (`acc` holds the elements so far) a
string or `null`.  Every other value is an error for a `[]string`, whether
`Unmarshal` reports it as a syntax error or as a value of the wrong type. -/
def startValue (acc : Option (List String)) (c : Char) : Scan :=
  if c = dquote then
    match acc with
    | some a => Scan.inString a [] none
    | none => Scan.failed
  else if c = 'n' then Scan.literal acc 1
  else Scan.failed

/-- One step of the scanner of `json.Unmarshal` into a `[]string`.  A `null` element
leaves the empty string; a control character within a string and an escape other
than the ones of JSON are errors. -/
def Scan.step : Scan → Char → Scan
  | Scan.top, c =>
    if isSpace c then Scan.top
    else if c = '[' then Scan.opened
    else startValue none c
  | Scan.literal acc k, c =>
    if k = 1 ∧ c = 'u' then Scan.literal acc 2
    else if k = 2 ∧ c = 'l' then Scan.literal acc 3
    else if k = 3 ∧ c = 'l' then
      match acc with
      | some a => Scan.afterItem (a ++ [""])
      | none => Scan.finished []
    else Scan.failed
  | Scan.opened, c =>
    if isSpace c then Scan.opened
    else if c = ']' then Scan.finished []
    else startValue (some []) c
  | Scan.afterComma acc, c =>
    if isSpace c then Scan.afterComma acc
    else startValue (some acc) c
  | Scan.afterItem acc, c =>
    if isSpace c then Scan.afterItem acc
    else if c = ',' then Scan.afterComma acc
    else if c = ']' then Scan.finished acc
    else Scan.failed
  | Scan.finished acc, c =>
    if isSpace c then Scan.finished acc else Scan.failed
  | Scan.inString acc cur hi, c =>
    if c.toNat = 34 then Scan.afterItem (acc ++ [String.mk (flush cur hi)])
    else if c.toNat = 92 then Scan.escaped acc cur hi
    else if c.toNat < 0x20 then Scan.failed
    else Scan.inString acc (flush cur hi ++ [c]) none
  | Scan.escaped acc cur hi, c =>
    if c = 'u' then Scan.hex acc cur hi 0 0
    else if c.toNat = 34 ∨ c.toNat = 92 ∨ c = '/' then
      Scan.inString acc (flush cur hi ++ [c]) none
    else if c = 'b' then Scan.inString acc (flush cur hi ++ [Char.ofNat 8]) none
    else if c = 'f' then Scan.inString acc (flush cur hi ++ [Char.ofNat 12]) none
    else if c = 'n' then Scan.inString acc (flush cur hi ++ [Char.ofNat 10]) none
    else if c = 'r' then Scan.inString acc (flush cur hi ++ [Char.ofNat 13]) none
    else if c = 't' then Scan.inString acc (flush cur hi ++ [Char.ofNat 9]) none
    else Scan.failed
  | Scan.hex acc cur hi k v, c =>
    match hexValue c with
    | none => Scan.failed
    | some d =>
      if k < 3 then Scan.hex acc cur hi (k + 1) (v * 16 + d)
      else closeUnit acc cur hi (v * 16 + d)
  | Scan.failed, _ => Scan.failed

/-- The package `encoding/json` at the type `[]string`.  `Marshal` never fails on a
`[]string`; it writes the compact text of the array (the empty list, which
`botstate.go` never marshals, is given the text of the empty slice).  `Unmarshal`
accepts the texts that are `null` or an array of strings and `null`s, with
insignificant space, and returns an error on every other text; `botstate.go`
never looks at the error value, so one message stands for all of them. -/
def goJSON : JSON where
  Marshal := fun xs => Except.ok (String.mk ('[' :: itemsJSON xs ++ [']']))
  Unmarshal := fun s =>
    match s.data.foldl Scan.step Scan.top with
    | Scan.finished acc => Except.ok (acc.map utf8)
    | _ => Except.error "invalid JSON input for a list of strings"

/-- The escape that `json.Marshal` writes for one character of a valid UTF-8 string. -/
def escapeChar (c : Char) : List Char :=
  if c.toNat < 0x80 then escapeASCII c.toNat else escapeRune c.toNat

/-- The names of the states are unique across the collection (section 3). -/
def UniqueNames (states : List State) : Prop :=
  (states.map State.Name).Nodup

/-- The handler does not write the logical field `current_state`. -/
def KeepsCurrentState (f : Handler) : Prop :=
  ∀ d, (f d).2.GetCurrentState = d.GetCurrentState

/-- The handler does not write the logical field `state_with_callback`. -/
def KeepsStateWithCallback (f : Handler) : Prop :=
  ∀ d, (f d).2.GetField "state_with_callback" = d.GetField "state_with_callback"

/-- A state with the given name and function fields, for the instances of the
theorems. -/
def mkState (name : String) (executes callback : Option Handler) (next : String) : State :=
  { Name := name, Executes := executes, Callback := callback, Next := next }

/-- A handler that writes nothing and returns the given boolean. -/
def constHandler (r : Bool) : Handler :=
  fun d => (r, d)

/-- A handler that writes the given value under the given key of the user data and
returns the given boolean. -/
def writeHandler (key val : String) (r : Bool) : Handler :=
  fun d => (r, { d with Current := assign d.Current key val })

/-- A bot with the given states, selected user and user data, no scheduled failure
and an empty log. -/
def mkBot (states : List State) (user : String) (current : Data) : Bot :=
  { States := states, Data := { UserID := user, Current := current }, Faults := [], Log := [] }

/-- The bot with another state collection in place of its own. -/
def Bot.withStates (b : Bot) (states : List State) : Bot :=
  { b with States := states }

/-- The bot with `state_with_callback` emptied in its user data. -/
def Bot.clearPending (b : Bot) : Bot :=
  { b with Data := { b.Data with Current := assign b.Data.Current "state_with_callback" "" } }

/-- The invariant of section 3 on the store: `state_with_callback`, when non-empty,
names a state present in the collection of the bot. -/
def PendingValid (b : Bot) : Prop :=
  b.stateWithCallback = "" ∨ ∃ s ∈ b.States, s.Name = b.stateWithCallback

/-- Every non-empty `Next` of the collection names a state present in the collection. -/
def NextClosed (states : List State) : Prop :=
  ∀ s ∈ states, s.Next ≠ "" → ∃ t ∈ states, t.Name = s.Next

/-- Two user data with the same user that agree on every field but
`state_with_callback`. -/
def AgreeOffCallback (d d0 : BotData) : Prop :=
  d.UserID = d0.UserID ∧ ∀ key, key ≠ "state_with_callback" → d.GetField key = d0.GetField key

/-- The handler does not read `state_with_callback`: on user data that agree on every
other field it returns the same boolean and leaves user data that agree on every
other field. -/
def IgnoresStateWithCallback (f : Handler) : Prop :=
  ∀ d d0, AgreeOffCallback d d0 → (f d).1 = (f d0).1 ∧ AgreeOffCallback (f d).2 (f d0).2

/-- Which function an invocation is: `true` for an `Executes` and `false` for a
`Callback`, with the name of its state. -/
def Event.label : Event → Bool × String
  | Event.callback n _ => (false, n)
  | Event.action n _ => (true, n)

/-- Two bots with the same collection and fault schedule, the same functions invoked
so far, and user data that agree on every field but `state_with_callback`. -/
def Similar (b b0 : Bot) : Prop :=
  b.States = b0.States ∧ b.Faults = b0.Faults ∧
  b.Log.map Event.label = b0.Log.map Event.label ∧ AgreeOffCallback b.Data b0.Data

/-- A handler that reads `state_with_callback`: it writes nothing and returns `true`
exactly when the field is empty. -/
def pendingFreeHandler : Handler :=
  fun d => (decide (d.GetField "state_with_callback" = ""), d)

/-- A bot for the instances of the theorems: the state `S` has an action and a
callback, the state `T` has an action and `S` as its next state, the user `u` is
selected and the callback of `S` is pending; every handler returns `true` and
writes nothing. -/
def demoBot : Bot :=
  mkBot [mkState "S" (some (constHandler true)) (some (constHandler true)) "",
    mkState "T" (some (constHandler true)) none "S"] "u" [("state_with_callback", "S")]

/-! ## The store -/

theorem lookup_assign_same (m : Data) (k v : String) : lookup (assign m k v) k = v := by
  induction m with
  | nil => simp [assign, lookup]
  | cons p rest ih =>
    obtain ⟨k1, v1⟩ := p
    by_cases h : k1 = k
    · simp [assign, lookup, h]
    · simp [assign, lookup, h, ih]

theorem lookup_assign_other (m : Data) (k v key : String) (hne : k ≠ key) :
    lookup (assign m k v) key = lookup m key := by
  induction m with
  | nil => simp [assign, lookup, hne]
  | cons p rest ih =>
    obtain ⟨k1, v1⟩ := p
    by_cases h : k1 = k
    · subst h
      simp [assign, lookup, hne]
    · by_cases h2 : k1 = key
      · subst h2
        simp [assign, lookup, h]
      · simp [assign, lookup, h, h2, ih]

theorem merge_single (m : Data) (k v : String) : merge m [(k, v)] = assign m k v := rfl

/-! ## The scan of the state collection -/

theorem executeStateLoop_no_match (b : Bot) (name : String) (l : List State)
    (hname : ∀ s ∈ l, s.Name ≠ name) :
    executeStateLoop b name l = ((false, some (UnknownState name)), b) := by
  induction l with
  | nil => rfl
  | cons s rest ih =>
    have hs : s.Name ≠ name := hname s (List.mem_cons_self s rest)
    have hrest : ∀ t ∈ rest, t.Name ≠ name := fun t ht => hname t (List.mem_cons_of_mem s ht)
    simp [executeStateLoop, hs, ih hrest]

theorem executeStateLoop_first_match (b : Bot) (name : String) (l : List State)
    (hex : ∃ s ∈ l, s.Name = name) :
    ∃ s ∈ l, s.Name = name ∧ executeStateLoop b name l = executeMatched b s := by
  induction l with
  | nil => simp at hex
  | cons s rest ih =>
    by_cases hs : s.Name = name
    · exact ⟨s, List.mem_cons_self s rest, hs, by simp [executeStateLoop, hs]⟩
    · have hrest : ∃ t ∈ rest, t.Name = name := by
        obtain ⟨t, ht, htn⟩ := hex
        rcases List.mem_cons.mp ht with h | h
        · exact absurd (h ▸ htn) hs
        · exact ⟨t, h, htn⟩
      obtain ⟨t, ht, htn, heq⟩ := ih hrest
      exact ⟨t, List.mem_cons_of_mem s ht, htn, by simp [executeStateLoop, hs, heq]⟩

theorem executeStateLoop_unique (b : Bot) (l : List State) (T : State)
    (hu : UniqueNames l) (hT : T ∈ l) :
    executeStateLoop b T.Name l = executeMatched b T := by
  induction l with
  | nil => simp at hT
  | cons s rest ih =>
    have hu2 : s.Name ∉ rest.map State.Name ∧ UniqueNames rest := by
      simpa [UniqueNames] using hu
    rcases List.mem_cons.mp hT with h | h
    · subst h
      simp [executeStateLoop]
    · have hne : s.Name ≠ T.Name := by
        intro heq
        exact hu2.1 (heq ▸ List.mem_map_of_mem State.Name h)
      simp [executeStateLoop, hne, ih hu2.2 h]

theorem executeState_unique (b : Bot) (T : State)
    (hu : UniqueNames b.States) (hT : T ∈ b.States) :
    ExecuteState b T.Name = executeMatched b T :=
  executeStateLoop_unique b b.States T hu hT

theorem executeCallbackFromStateLoop_unique (b : Bot) (l : List State) (S : State)
    (cb : Handler) (hu : UniqueNames l) (hS : S ∈ l) (hcb : S.Callback = some cb) :
    executeCallbackFromStateLoop b S.Name l = b.call cb (Event.callback S.Name) := by
  induction l with
  | nil => simp at hS
  | cons s rest ih =>
    have hu2 : s.Name ∉ rest.map State.Name ∧ UniqueNames rest := by
      simpa [UniqueNames] using hu
    rcases List.mem_cons.mp hS with h | h
    · subst h
      simp [executeCallbackFromStateLoop, hcb]
    · have hne : s.Name ≠ S.Name := by
        intro heq
        exact hu2.1 (heq ▸ List.mem_map_of_mem State.Name h)
      simp [executeCallbackFromStateLoop, hne, ih hu2.2 h]

theorem executeCallbackFromStateLoop_no_callback (b : Bot) (name : String) (l : List State)
    (hnone : ∀ s ∈ l, s.Name = name → s.Callback = none) :
    executeCallbackFromStateLoop b name l = (true, b) := by
  induction l with
  | nil => rfl
  | cons s rest ih =>
    have hrest : ∀ t ∈ rest, t.Name = name → t.Callback = none :=
      fun t ht => hnone t (List.mem_cons_of_mem s ht)
    by_cases hs : s.Name = name
    · have hc : s.Callback = none := hnone s (List.mem_cons_self s rest) hs
      simp [executeCallbackFromStateLoop, hs, hc, ih hrest]
    · simp [executeCallbackFromStateLoop, hs, ih hrest]

/-! ## The store operations of the bot -/

theorem healthy_answer (b : Bot) (h : b.Healthy) : b.answer = none := by
  unfold Bot.Healthy at h
  unfold Bot.answer
  cases hf : b.Faults with
  | nil => rfl
  | cons f fs =>
    rw [hf] at h
    simpa using h f (List.mem_cons_self f fs)

theorem healthy_of_faults_tail (b c : Bot) (h : b.Healthy) (hf : c.Faults = b.Faults.tail) :
    c.Healthy := by
  unfold Bot.Healthy at *
  intro f hfm
  rw [hf] at hfm
  exact h f (List.mem_of_mem_tail hfm)

theorem healthy_of_faults_eq (b c : Bot) (h : b.Healthy) (hf : c.Faults = b.Faults) :
    c.Healthy := by
  unfold Bot.Healthy at *
  rw [hf]
  exact h

theorem getField_setData_other (d : BotData) (k v key : String) (o : Option Error)
    (hne : k ≠ key) : (d.SetData [(k, v)] o).2.GetField key = d.GetField key := by
  cases o with
  | none => simp [BotData.SetData, BotData.GetField, merge_single, lookup_assign_other _ _ _ _ hne]
  | some e => rfl

theorem getField_setData_same (d : BotData) (k v : String) :
    (d.SetData [(k, v)] none).2.GetField k = v := by
  simp [BotData.SetData, BotData.GetField, merge_single, lookup_assign_same]

theorem userID_setData (d : BotData) (kv : Data) (o : Option Error) :
    (d.SetData kv o).2.UserID = d.UserID := by
  cases o <;> rfl

/-! ## The callback gate -/

theorem executeCallback_none_pending (b : Bot) (hswc : b.stateWithCallback = "") :
    executeCallback b = ((true, none), { b with Faults := b.Faults.tail }) := by
  have hg : (b.Data.GetStateWithCallback b.answer).1 = "" := by
    cases b.answer with
    | none => exact hswc
    | some e => rfl
  simp [executeCallback, Bot.GetStateWithCallback, hg]

theorem executeCallback_pending (b : Bot) (S : State) (cb : Handler)
    (hu : UniqueNames b.States) (hS : S ∈ b.States) (hcb : S.Callback = some cb)
    (hname : S.Name ≠ "") (hread : b.answer = none)
    (hswc : b.stateWithCallback = S.Name) :
    executeCallback b
      = (((cb b.Data).1, none),
         { b with Data := (cb b.Data).2, Faults := b.Faults.tail,
                  Log := b.Log ++ [Event.callback S.Name b.Data] }) := by
  have hg : (b.Data.GetStateWithCallback b.answer).1 = S.Name := by
    rw [hread]
    exact hswc
  have hloop := executeCallbackFromStateLoop_unique { b with Faults := b.Faults.tail }
    b.States S cb hu hS hcb
  simp [executeCallback, Bot.GetStateWithCallback, hg, hname, executeCallbackFromState,
    hloop, Bot.call]

theorem executeCallbackFromStateLoop_cases (b : Bot) (name : String) (l : List State) :
    executeCallbackFromStateLoop b name l = (true, b) ∨
    ∃ s ∈ l, ∃ cb, s.Name = name ∧ s.Callback = some cb ∧
      executeCallbackFromStateLoop b name l = b.call cb (Event.callback s.Name) := by
  induction l with
  | nil => exact Or.inl rfl
  | cons s rest ih =>
    by_cases hs : s.Name = name
    · cases hc : s.Callback with
      | some cb =>
        exact Or.inr ⟨s, List.mem_cons_self s rest, cb, hs, hc,
          by simp [executeCallbackFromStateLoop, hs, hc]⟩
      | none =>
        rcases ih with h | ⟨t, ht, cb, htn, htc, heq⟩
        · exact Or.inl (by simp [executeCallbackFromStateLoop, hs, hc, h])
        · exact Or.inr ⟨t, List.mem_cons_of_mem s ht, cb, htn, htc,
            by simp [executeCallbackFromStateLoop, hs, hc, heq]⟩
    · rcases ih with h | ⟨t, ht, cb, htn, htc, heq⟩
      · exact Or.inl (by simp [executeCallbackFromStateLoop, hs, h])
      · exact Or.inr ⟨t, List.mem_cons_of_mem s ht, cb, htn, htc,
          by simp [executeCallbackFromStateLoop, hs, heq]⟩

theorem executeCallback_cases (b : Bot) :
    executeCallback b = ((true, none), { b with Faults := b.Faults.tail }) ∨
    ∃ s ∈ b.States, ∃ cb, s.Callback = some cb ∧ s.Name ≠ "" ∧
      s.Name = b.stateWithCallback ∧ b.answer = none ∧
      executeCallback b
        = (((cb b.Data).1, none),
           { b with Data := (cb b.Data).2, Faults := b.Faults.tail,
                    Log := b.Log ++ [Event.callback s.Name b.Data] }) := by
  by_cases hg : (b.Data.GetStateWithCallback b.answer).1 = ""
  · exact Or.inl (by simp [executeCallback, Bot.GetStateWithCallback, hg])
  · have hans : b.answer = none := by
      cases ha : b.answer with
      | none => rfl
      | some e => rw [ha] at hg; exact absurd rfl hg
    have hname : (b.Data.GetStateWithCallback b.answer).1 = b.stateWithCallback := by
      rw [hans]; rfl
    rcases executeCallbackFromStateLoop_cases { b with Faults := b.Faults.tail }
        (b.Data.GetStateWithCallback b.answer).1 b.States with h | ⟨s, hs, cb, hsn, hsc, heq⟩
    · exact Or.inl (by
        simp [executeCallback, Bot.GetStateWithCallback, hg, executeCallbackFromState, h])
    · refine Or.inr ⟨s, hs, cb, hsc, ?_, ?_, hans, ?_⟩
      · rw [hsn]; exact hg
      · rw [hsn]; exact hname
      · simp [executeCallback, Bot.GetStateWithCallback, hg, executeCallbackFromState, heq,
          Bot.call]

theorem executeCallback_err (b : Bot) : (executeCallback b).1.2 = none := by
  rcases executeCallback_cases b with h | ⟨s, _, cb, _, _, _, _, h⟩ <;> rw [h]

theorem executeCallback_states (b : Bot) : (executeCallback b).2.States = b.States := by
  rcases executeCallback_cases b with h | ⟨s, _, cb, _, _, _, _, h⟩ <;> rw [h]

theorem executeCallback_faults (b : Bot) : (executeCallback b).2.Faults = b.Faults.tail := by
  rcases executeCallback_cases b with h | ⟨s, _, cb, _, _, _, _, h⟩ <;> rw [h]

theorem executeCallback_userID (b : Bot)
    (hcb : ∀ s ∈ b.States, ∀ cb, s.Callback = some cb → ∀ d, (cb d).2.UserID = d.UserID) :
    (executeCallback b).2.Data.UserID = b.Data.UserID := by
  rcases executeCallback_cases b with h | ⟨s, hs, cb, hc, _, _, _, h⟩
  · rw [h]
  · rw [h]; exact hcb s hs cb hc b.Data

/-! ## The steps of `ExecuteState` after the gate -/

theorem executeGated_eq (b : Bot) (T : State) (act : Handler) :
    executeGated b T act =
      if (executeCallback b).1.1 = false then ((false, none), (executeCallback b).2)
      else
        match (armCallback (executeCallback b).2 T).1 with
        | some err => ((false, some err), (armCallback (executeCallback b).2 T).2)
        | none => runExecutes (armCallback (executeCallback b).2 T).2 T act := by
  have herr := executeCallback_err b
  unfold executeGated
  simp only [herr]

theorem executeGated_pass (b : Bot) (T : State) (act : Handler)
    (hgate : (executeCallback b).1.1 = true)
    (harm : (armCallback (executeCallback b).2 T).1 = none) :
    executeGated b T act = runExecutes (armCallback (executeCallback b).2 T).2 T act := by
  rw [executeGated_eq, if_neg (by simp [hgate])]
  simp only [harm]

theorem setData_fst (d : BotData) (kv : Data) (o : Option Error) : (d.SetData kv o).1 = o := by
  cases o <;> rfl

theorem armCallback_fst_of_answer (b : Bot) (T : State) (h : b.answer = none) :
    (armCallback b T).1 = none := by
  unfold armCallback
  cases T.Callback with
  | none => rfl
  | some cb =>
    simp only [Bot.SetStateWithCallback, BotData.SetStateWithCallback, setData_fst, h]

theorem armCallback_log (b : Bot) (T : State) : (armCallback b T).2.Log = b.Log := by
  unfold armCallback
  cases T.Callback <;> rfl

theorem armCallback_states (b : Bot) (T : State) : (armCallback b T).2.States = b.States := by
  unfold armCallback
  cases T.Callback <;> rfl

theorem armCallback_currentState (b : Bot) (T : State) :
    (armCallback b T).2.currentState = b.currentState := by
  unfold armCallback
  cases T.Callback with
  | none => rfl
  | some cb =>
    exact getField_setData_other b.Data "state_with_callback" T.Name "current_state" b.answer
      (by decide)

theorem armCallback_healthy (b : Bot) (T : State) (h : b.Healthy) :
    (armCallback b T).2.Healthy := by
  unfold armCallback
  cases T.Callback with
  | none => exact h
  | some cb => exact healthy_of_faults_tail b _ h rfl

theorem runExecutes_fst (b : Bot) (T : State) (act : Handler) :
    (runExecutes b T act).1 = ((act b.Data).1, none) := by
  unfold runExecutes
  dsimp only
  split <;> rfl

theorem runExecutes_log (b : Bot) (T : State) (act : Handler) :
    (runExecutes b T act).2.Log = b.Log ++ [Event.action T.Name b.Data] := by
  unfold runExecutes
  dsimp only
  split <;> rfl

theorem runExecutes_stateWithCallback (b : Bot) (T : State) (act : Handler)
    (hkeep : KeepsStateWithCallback act) :
    (runExecutes b T act).2.stateWithCallback = b.stateWithCallback := by
  unfold runExecutes
  dsimp only
  split
  · exact (getField_setData_other (act b.Data).2 "current_state" T.Next "state_with_callback"
      _ (by decide)).trans (hkeep b.Data)
  · exact hkeep b.Data

theorem runExecutes_currentState_next (b : Bot) (T : State) (act : Handler)
    (hans : b.answer = none) (htrue : (act b.Data).1 = true) (hnext : T.Next ≠ "") :
    (runExecutes b T act).2.currentState = T.Next := by
  have hcond : (b.call act (Event.action T.Name)).1 = true ∧ T.Next ≠ "" := ⟨htrue, hnext⟩
  have hans2 : (b.call act (Event.action T.Name)).2.answer = none := hans
  unfold runExecutes
  dsimp only
  rw [if_pos hcond]
  show ((b.call act (Event.action T.Name)).2.Data.SetData [("current_state", T.Next)]
    (b.call act (Event.action T.Name)).2.answer).2.GetField "current_state" = T.Next
  rw [hans2]
  exact getField_setData_same _ _ _

theorem runExecutes_currentState_stay (b : Bot) (T : State) (act : Handler)
    (hkeep : (act b.Data).2.GetCurrentState = b.Data.GetCurrentState)
    (hstay : (act b.Data).1 = false ∨ T.Next = "") :
    (runExecutes b T act).2.currentState = b.currentState := by
  have hcond : ¬ ((b.call act (Event.action T.Name)).1 = true ∧ T.Next ≠ "") := by
    rintro ⟨h1, h2⟩
    rcases hstay with h | h
    · have h3 : (act b.Data).1 = true := h1
      rw [h] at h3
      exact Bool.noConfusion h3
    · exact h2 h
  unfold runExecutes
  dsimp only
  rw [if_neg hcond]
  exact hkeep

theorem executeCallback_currentState (b : Bot)
    (hcb : ∀ s ∈ b.States, ∀ cb, s.Callback = some cb → KeepsCurrentState cb) :
    (executeCallback b).2.currentState = b.currentState := by
  rcases executeCallback_cases b with h | ⟨s, hs, cb, hc, _, _, _, h⟩
  · rw [h]; rfl
  · rw [h]; exact hcb s hs cb hc b.Data

theorem setCurrentState_currentState (b : Bot) (name : String) (hans : b.answer = none) :
    (b.SetCurrentState name).2.currentState = name := by
  show (b.Data.SetData [("current_state", name)] b.answer).2.GetField "current_state" = name
  rw [hans]
  exact getField_setData_same _ _ _

/-! ## The message buffer -/

theorem getMessages_snd (c : JSON) (b : Bot) :
    (GetMessages c b).2 = (b.SetData [("messages", "")]).2 := by
  unfold GetMessages
  dsimp only
  split <;> rfl

theorem getMessages_fst_ok (c : JSON) (b : Bot) (xs : List GoString)
    (h : c.Unmarshal b.messages = Except.ok xs) : (GetMessages c b).1 = xs := by
  have h2 : c.Unmarshal (lookup b.Data.Current "messages") = Except.ok xs := h
  unfold GetMessages
  dsimp only
  rw [h2]

theorem getMessages_fst_error (c : JSON) (b : Bot) (e : Error)
    (h : c.Unmarshal b.messages = Except.error e) : (GetMessages c b).1 = [] := by
  have h2 : c.Unmarshal (lookup b.Data.Current "messages") = Except.error e := h
  unfold GetMessages
  dsimp only
  rw [h2]

theorem setData_messages (b : Bot) (v : String) (hans : b.answer = none) :
    (b.SetData [("messages", v)]).2.messages = v := by
  show (b.Data.SetData [("messages", v)] b.answer).2.GetField "messages" = v
  rw [hans]
  exact getField_setData_same _ _ _

/-! ## The package `encoding/json` on valid UTF-8 strings -/

theorem escapeBytes_skip (xs rest : List Nat) :
    escapeBytes xs.length (xs ++ rest) = escapeBytes 0 rest := by
  induction xs with
  | nil => rfl
  | cons x xs ih => simpa [escapeBytes] using ih

theorem char_valid (c : Char) :
    c.toNat < 0xD800 ∨ (0xDFFF < c.toNat ∧ c.toNat < 0x110000) := c.valid

theorem escapeBytes_utf8Char (c : Char) (rest : List Nat) :
    escapeBytes 0 (utf8Char c ++ rest) = escapeChar c ++ escapeBytes 0 rest := by
  have hv := char_valid c
  unfold utf8Char escapeChar
  by_cases h1 : c.toNat < 0x80
  · simp [h1, escapeBytes]
  · by_cases h2 : c.toNat < 0x800
    · have hdec : decodeRune (0xC0 + c.toNat / 64) ((0x80 + c.toNat % 64) :: rest)
          = some (c.toNat, 1) := by
        have hc : 0xC2 ≤ 0xC0 + c.toNat / 64 ∧ 0xC0 + c.toNat / 64 ≤ 0xDF ∧
            isCont (0x80 + c.toNat % 64) := by
          unfold isCont
          omega
        have hr : (0xC0 + c.toNat / 64 - 0xC0) * 64 + (0x80 + c.toNat % 64 - 0x80) = c.toNat := by
          omega
        simp only [decodeRune, if_pos hc, hr]
      have hb : ¬ (0xC0 + c.toNat / 64 < 0x80) := by omega
      simp only [h1, h2, if_false, if_true, List.cons_append, List.nil_append, escapeBytes,
        if_neg hb, hdec]
    · by_cases h3 : c.toNat < 0x10000
      · have hdec : decodeRune (0xE0 + c.toNat / 4096)
            ((0x80 + c.toNat / 64 % 64) :: (0x80 + c.toNat % 64) :: rest)
            = some (c.toNat, 2) := by
          have hc2 : ¬ (0xC2 ≤ 0xE0 + c.toNat / 4096 ∧ 0xE0 + c.toNat / 4096 ≤ 0xDF ∧
              isCont (0x80 + c.toNat / 64 % 64)) := by omega
          have hc : accept3 (0xE0 + c.toNat / 4096) (0x80 + c.toNat / 64 % 64) ∧
              isCont (0x80 + c.toNat % 64) := by
            unfold accept3 isCont
            omega
          have hr : (0xE0 + c.toNat / 4096 - 0xE0) * 4096 + (0x80 + c.toNat / 64 % 64 - 0x80) * 64
              + (0x80 + c.toNat % 64 - 0x80) = c.toNat := by
            omega
          simp only [decodeRune, if_neg hc2, if_pos hc, hr]
        have hb : ¬ (0xE0 + c.toNat / 4096 < 0x80) := by omega
        simp only [h1, h2, h3, if_false, if_true, List.cons_append, List.nil_append, escapeBytes,
          if_neg hb, hdec]
      · have hdec : decodeRune (0xF0 + c.toNat / 262144)
            ((0x80 + c.toNat / 4096 % 64) :: (0x80 + c.toNat / 64 % 64)
              :: (0x80 + c.toNat % 64) :: rest)
            = some (c.toNat, 3) := by
          have hc2 : ¬ (0xC2 ≤ 0xF0 + c.toNat / 262144 ∧ 0xF0 + c.toNat / 262144 ≤ 0xDF ∧
              isCont (0x80 + c.toNat / 4096 % 64)) := by omega
          have hc3 : ¬ (accept3 (0xF0 + c.toNat / 262144) (0x80 + c.toNat / 4096 % 64) ∧
              isCont (0x80 + c.toNat / 64 % 64)) := by
            unfold accept3
            omega
          have hc : accept4 (0xF0 + c.toNat / 262144) (0x80 + c.toNat / 4096 % 64) ∧
              isCont (0x80 + c.toNat / 64 % 64) ∧ isCont (0x80 + c.toNat % 64) := by
            unfold accept4 isCont
            omega
          have hr : (0xF0 + c.toNat / 262144 - 0xF0) * 262144
              + (0x80 + c.toNat / 4096 % 64 - 0x80) * 4096
              + (0x80 + c.toNat / 64 % 64 - 0x80) * 64
              + (0x80 + c.toNat % 64 - 0x80) = c.toNat := by
            omega
          simp only [decodeRune, if_neg hc2, if_neg hc3, if_pos hc, hr]
        have hb : ¬ (0xF0 + c.toNat / 262144 < 0x80) := by omega
        simp only [h1, h2, h3, if_false, if_true, List.cons_append, List.nil_append, escapeBytes,
          if_neg hb, hdec]

theorem escapeBytes_utf8 (cs : List Char) (rest : List Nat) :
    escapeBytes 0 (cs.flatMap utf8Char ++ rest) = cs.flatMap escapeChar ++ escapeBytes 0 rest := by
  induction cs with
  | nil => rfl
  | cons c cs ih =>
    rw [List.flatMap_cons, List.flatMap_cons, List.append_assoc, escapeBytes_utf8Char, ih,
      List.append_assoc]


theorem step_escapeASCII (v : Nat) (hv : v < 128) (acc : List String) (cur : List Char) :
    (escapeASCII v).foldl Scan.step (Scan.inString acc cur none)
      = Scan.inString acc (cur ++ [Char.ofNat v]) none := by
  interval_cases v <;> rfl

theorem step_escapeChar (c : Char) (acc : List String) (cur : List Char) :
    (escapeChar c).foldl Scan.step (Scan.inString acc cur none)
      = Scan.inString acc (cur ++ [c]) none := by
  unfold escapeChar
  by_cases h1 : c.toNat < 0x80
  · rw [if_pos h1, step_escapeASCII c.toNat h1, Char.ofNat_toNat]
  · rw [if_neg h1]
    unfold escapeRune
    by_cases h2 : c.toNat = 0x2028
    · have hc : c = Char.ofNat 0x2028 := by rw [← h2, Char.ofNat_toNat]
      rw [if_pos h2, hc]
      rfl
    · by_cases h3 : c.toNat = 0x2029
      · have hc : c = Char.ofNat 0x2029 := by rw [← h3, Char.ofNat_toNat]
        rw [if_neg h2, if_pos h3, hc]
        rfl
      · have ha : ¬ c.toNat = 34 := by omega
        have hb : ¬ c.toNat = 92 := by omega
        have hd : ¬ c.toNat < 0x20 := by omega
        rw [if_neg h2, if_neg h3, Char.ofNat_toNat]
        simp only [List.foldl, Scan.step, if_neg ha, if_neg hb, if_neg hd, flush]

theorem step_escapeChars (cs : List Char) (acc : List String) (cur : List Char) :
    (cs.flatMap escapeChar).foldl Scan.step (Scan.inString acc cur none)
      = Scan.inString acc (cur ++ cs) none := by
  induction cs generalizing cur with
  | nil => simp
  | cons c cs ih =>
    rw [List.flatMap_cons, List.foldl_append, step_escapeChar, ih, List.append_assoc]
    rfl

theorem escapeBytes_utf8_string (s : String) :
    escapeBytes 0 (utf8 s) = s.data.flatMap escapeChar := by
  have h := escapeBytes_utf8 s.data []
  simpa [utf8, escapeBytes] using h

theorem step_quoteJSON (s : String) (acc : List String) :
    (quoteJSON (utf8 s)).foldl Scan.step (Scan.afterComma acc) = Scan.afterItem (acc ++ [s]) := by
  unfold quoteJSON
  rw [escapeBytes_utf8_string, List.cons_append, List.foldl_cons, List.foldl_append]
  have h0 : Scan.step (Scan.afterComma acc) dquote = Scan.inString acc [] none := rfl
  rw [h0, step_escapeChars]
  rfl

theorem step_quoteJSON_opened (s : String) :
    (quoteJSON (utf8 s)).foldl Scan.step Scan.opened = Scan.afterItem [s] := by
  unfold quoteJSON
  rw [escapeBytes_utf8_string, List.cons_append, List.foldl_cons, List.foldl_append]
  have h0 : Scan.step Scan.opened dquote = Scan.inString [] [] none := rfl
  rw [h0, step_escapeChars]
  rfl

theorem step_itemsJSON (zs : List String) (z : String) (acc : List String) :
    (itemsJSON ((z :: zs).map utf8)).foldl Scan.step (Scan.afterComma acc)
      = Scan.afterItem (acc ++ z :: zs) := by
  induction zs generalizing z acc with
  | nil => exact step_quoteJSON z acc
  | cons y ys ih =>
    have hitems : itemsJSON ((z :: y :: ys).map utf8)
        = quoteJSON (utf8 z) ++ ',' :: itemsJSON ((y :: ys).map utf8) := rfl
    rw [hitems, List.foldl_append, step_quoteJSON, List.foldl_cons]
    have hc : Scan.step (Scan.afterItem (acc ++ [z])) ',' = Scan.afterComma (acc ++ [z]) := rfl
    rw [hc, ih, List.append_assoc]
    rfl

theorem step_itemsJSON_opened (zs : List String) (z : String) :
    (itemsJSON ((z :: zs).map utf8)).foldl Scan.step Scan.opened = Scan.afterItem (z :: zs) := by
  cases zs with
  | nil => exact step_quoteJSON_opened z
  | cons y ys =>
    have hitems : itemsJSON ((z :: y :: ys).map utf8)
        = quoteJSON (utf8 z) ++ ',' :: itemsJSON ((y :: ys).map utf8) := rfl
    rw [hitems, List.foldl_append, step_quoteJSON_opened, List.foldl_cons]
    have hc : Scan.step (Scan.afterItem [z]) ',' = Scan.afterComma [z] := rfl
    rw [hc, step_itemsJSON]
    rfl

theorem goJSON_roundtrip (zs : List String) :
    ∃ j, goJSON.Marshal (zs.map utf8) = Except.ok j ∧
      goJSON.Unmarshal j = Except.ok (zs.map utf8) := by
  refine ⟨String.mk ('[' :: itemsJSON (zs.map utf8) ++ [']']), rfl, ?_⟩
  cases zs with
  | nil => rfl
  | cons z zs =>
    show (match ('[' :: itemsJSON ((z :: zs).map utf8) ++ [']']).foldl Scan.step Scan.top with
      | Scan.finished acc => Except.ok (acc.map utf8)
      | _ => Except.error "invalid JSON input for a list of strings") = Except.ok ((z :: zs).map utf8)
    rw [List.cons_append, List.foldl_cons, List.foldl_append]
    have h0 : Scan.step Scan.top '[' = Scan.opened := rfl
    rw [h0, step_itemsJSON_opened]
    rfl

/-- Sample values of `goJSON`: `Unmarshal` accepts insignificant space, the escapes of
JSON with surrogate pairs, and `null` for an element or for the whole value; it
returns an error on a raw control character within a string, on an element that
is not a string, on a trailing comma and on the empty text; `Marshal` escapes the
control characters and `<`, `>`, `&`, and writes a byte that is not valid UTF-8 as
the escape of U+FFFD. -/
theorem goJSON_samples :
    goJSON.Unmarshal " [ \"a\" ,\t\"b\\n\" ]\n" = Except.ok [utf8 "a", utf8 "b\n"] ∧
    goJSON.Unmarshal "[\"\\u00e9\\/\\ud83d\\ude00\",null]" = Except.ok [utf8 "é/😀", []] ∧
    goJSON.Unmarshal "[\"\\ud83dx\"]" = Except.ok [[0xEF, 0xBF, 0xBD, 120]] ∧
    goJSON.Unmarshal "null" = Except.ok [] ∧
    goJSON.Unmarshal "[]" = Except.ok [] ∧
    (∃ e, goJSON.Unmarshal "[\"a\nb\"]" = Except.error e) ∧
    (∃ e, goJSON.Unmarshal "[\"a\",7]" = Except.error e) ∧
    (∃ e, goJSON.Unmarshal "[\"a\",]" = Except.error e) ∧
    (∃ e, goJSON.Unmarshal "\"a\"" = Except.error e) ∧
    (∃ e, goJSON.Unmarshal "" = Except.error e) ∧
    goJSON.Marshal [utf8 "a<b>&\n\"é"] = Except.ok "[\"a\\u003cb\\u003e\\u0026\\n\\\"é\"]" ∧
    goJSON.Marshal [[0x61, 0xC3], [0xED, 0xA0, 0x80]]
      = Except.ok "[\"a\\ufffd\",\"\\ufffd\\ufffd\\ufffd\"]" := by
  refine ⟨rfl, rfl, rfl, rfl, rfl, ⟨_, rfl⟩, ⟨_, rfl⟩, ⟨_, rfl⟩, ⟨_, rfl⟩, ⟨_, rfl⟩, rfl, rfl⟩

/-! ## The preconditions of `ExecuteState` -/

/-- C1: for every state collection (with unique names or not), every store and every
name that matches no state of the collection, `ExecuteState` returns `false` with
the `UnknownState` error and leaves the bot as it found it: no store operation is
made, so `current_state`, `state_with_callback` and the data are unchanged, and the
log is unchanged, so no action and no callback is invoked. -/
theorem executeState_unknown_name (b : Bot) (name : String)
    (hname : ∀ s ∈ b.States, s.Name ≠ name) :
    ExecuteState b name = ((false, some (UnknownState name)), b) :=
  executeStateLoop_no_match b name b.States hname

theorem executeState_unknown_name_witness :
    (∀ s ∈ (mkBot [mkState "ask" (some (constHandler true)) none "end"] "u"
        [("current_state", "ask")]).States, s.Name ≠ "pay") ∧
    ExecuteState (mkBot [mkState "ask" (some (constHandler true)) none "end"] "u"
        [("current_state", "ask")]) "pay"
      = ((false, some (UnknownState "pay")),
         mkBot [mkState "ask" (some (constHandler true)) none "end"] "u"
           [("current_state", "ask")]) :=
  ⟨by simp [mkBot, mkState],
   executeState_unknown_name _ "pay" (by simp [mkBot, mkState])⟩

/-- C2, as stated, fails: with no user selected and a name that matches no state,
`ExecuteState` returns the `UnknownState` error, not the `NoActiveUser` error. -/
theorem executeState_no_user_unknown_name :
    (New [mkState "ask" (some (constHandler true)) none ""]).Data.UserID = "" ∧
    (ExecuteState (New [mkState "ask" (some (constHandler true)) none ""]) "pay").1
      = (false, some (UnknownState "pay")) ∧
    (ExecuteState (New [mkState "ask" (some (constHandler true)) none ""]) "pay").1.2
      ≠ some (NoActiveUser "pay") := by
  decide

/-- C2, amended: for every state collection and every name that matches a state of
the collection (whether or not that state has an action), `ExecuteState` called
while no user is selected returns `false` with the `NoActiveUser` error, and
leaves the bot as it found it. -/
theorem executeState_no_user (b : Bot) (name : String)
    (huser : b.Data.UserID = "") (hex : ∃ s ∈ b.States, s.Name = name) :
    ExecuteState b name = ((false, some (NoActiveUser name)), b) := by
  obtain ⟨s, _, hs, heq⟩ := executeStateLoop_first_match b name b.States hex
  rw [ExecuteState, heq, executeMatched, if_pos huser, hs]

theorem executeState_no_user_witness :
    (New [mkState "ask" none none ""]).Data.UserID = "" ∧
    (∃ s ∈ (New [mkState "ask" none none ""]).States, s.Name = "ask") ∧
    ExecuteState (New [mkState "ask" none none ""]) "ask"
      = ((false, some (NoActiveUser "ask")), New [mkState "ask" none none ""]) :=
  ⟨rfl, ⟨mkState "ask" none none "", by simp [New], rfl⟩,
   executeState_no_user _ "ask" rfl ⟨mkState "ask" none none "", by simp [New], rfl⟩⟩

/-- C3, as stated, fails: for a state without an action and a selected user,
`ExecuteState` returns the `MissingAction` error before `current_state` is
recorded; the field keeps its previous value. -/
theorem executeState_missing_action_not_recorded :
    (ExecuteState (mkBot [mkState "ask" none none ""] "u" [("current_state", "old")])
        "ask").1 = (false, some (MissingAction "ask")) ∧
    (ExecuteState (mkBot [mkState "ask" none none ""] "u" [("current_state", "old")])
        "ask").2.currentState = "old" ∧
    (ExecuteState (mkBot [mkState "ask" none none ""] "u" [("current_state", "old")])
        "ask").2.currentState ≠ "ask" := by
  decide

/-- C3, amended: for every defined state `T` whose action is absent and every selected
user, `ExecuteState` returns `false` with the `MissingAction` error and leaves the
bot as it found it: `current_state` is not recorded, no store operation is made, no
callback is invoked and `state_with_callback` is unchanged. -/
theorem executeState_missing_action (b : Bot) (T : State)
    (hu : UniqueNames b.States) (hT : T ∈ b.States)
    (huser : b.Data.UserID ≠ "") (hact : T.Executes = none) :
    ExecuteState b T.Name = ((false, some (MissingAction T.Name)), b) := by
  rw [executeState_unique b T hu hT, executeMatched, if_neg huser, hact]

theorem executeState_missing_action_witness :
    UniqueNames (mkBot [mkState "ask" none none ""] "u" []).States ∧
    ExecuteState (mkBot [mkState "ask" none none ""] "u" []) (mkState "ask" none none "").Name
      = ((false, some (MissingAction (mkState "ask" none none "").Name)),
         mkBot [mkState "ask" none none ""] "u" []) :=
  ⟨by simp [UniqueNames, mkBot, mkState],
   executeState_missing_action _ (mkState "ask" none none "")
     (by simp [UniqueNames, mkBot, mkState]) (by simp [mkBot]) (by simp [mkBot])  rfl⟩

/-! ## The callback gate and the action -/

/-- C4, as stated, fails: a state `S` whose name is the empty string cannot be a
pending callback, since an empty `state_with_callback` means that none is pending;
with `state_with_callback` equal to the name of `S`, whose callback returns
`false`, `ExecuteState` of another state `T` runs the action of `T` and returns
`(true, nil)`. -/
theorem executeState_gate_empty_name :
    UniqueNames (mkBot [mkState "" none (some (constHandler false)) "",
        mkState "T" (some (constHandler true)) none ""] "u" []).States ∧
    (mkBot [mkState "" none (some (constHandler false)) "",
        mkState "T" (some (constHandler true)) none ""] "u" []).stateWithCallback
      = (mkState "" none (some (constHandler false)) "").Name ∧
    (ExecuteState (mkBot [mkState "" none (some (constHandler false)) "",
        mkState "T" (some (constHandler true)) none ""] "u" []) "T").1 = (true, none) ∧
    (ExecuteState (mkBot [mkState "" none (some (constHandler false)) "",
        mkState "T" (some (constHandler true)) none ""] "u" []) "T").2.Log
      = [Event.action "T" { UserID := "u", Current := [("current_state", "T")] }] := by
  refine ⟨?_, ?_, ?_, ?_⟩
  · simp [UniqueNames, mkBot, mkState]
  · rfl
  · rfl
  · rfl

/-- C4, amended: for every collection with unique names containing a state `S` with a
non-empty name whose callback returns `false`, and a state `T` (another one, or `S`
itself) that has an action, with a user selected, the persistence layer reporting
no failure and `state_with_callback` equal to the name of `S`, `ExecuteState` of
`T` returns `(false, nil)`; the only function it invokes is the callback of `S`,
on the user data in which `current_state` was recorded, so the action of `T` is
never invoked; and the user data is left as the callback left it, so the engine
does not arm `state_with_callback` to `T`. -/
theorem executeState_gate_fails (b : Bot) (S T : State) (cb act : Handler)
    (hu : UniqueNames b.States) (hS : S ∈ b.States) (hT : T ∈ b.States)
    (hcb : S.Callback = some cb) (hfalse : ∀ d, (cb d).1 = false)
    (hact : T.Executes = some act) (huser : b.Data.UserID ≠ "")
    (hhealthy : b.Healthy) (hname : S.Name ≠ "")
    (hswc : b.stateWithCallback = S.Name) :
    ExecuteState b T.Name
      = ((false, none),
         { b with
           Data := (cb (b.Data.SetCurrentState T.Name none).2).2
           Faults := b.Faults.tail.tail
           Log := b.Log ++ [Event.callback S.Name (b.Data.SetCurrentState T.Name none).2] }) := by
  have h0 : b.answer = none := healthy_answer b hhealthy
  have hb1 : (b.SetCurrentState T.Name).2
      = { b with Data := (b.Data.SetCurrentState T.Name none).2, Faults := b.Faults.tail } := by
    simp [Bot.SetCurrentState, h0]
  have hh1 : (b.SetCurrentState T.Name).2.Healthy :=
    healthy_of_faults_tail b _ hhealthy (by rw [hb1])
  have hswc1 : (b.SetCurrentState T.Name).2.stateWithCallback = S.Name := by
    rw [hb1, ← hswc]
    exact getField_setData_other b.Data "current_state" T.Name "state_with_callback" none
      (by decide)
  have hgate := executeCallback_pending (b.SetCurrentState T.Name).2 S cb
    (by rw [hb1]; exact hu) (by rw [hb1]; exact hS) hcb hname
    (healthy_answer _ hh1) hswc1
  rw [executeState_unique b T hu hT, executeMatched, if_neg huser, hact]
  simp only [executeGated, hgate, hfalse]
  simp [hb1]

theorem executeState_gate_fails_witness :
    ExecuteState (mkBot [mkState "S" none (some (constHandler false)) "",
        mkState "T" (some (constHandler true)) none "U"] "u" [("state_with_callback", "S")])
      (mkState "T" (some (constHandler true)) none "U").Name
      = ((false, none),
         { mkBot [mkState "S" none (some (constHandler false)) "",
             mkState "T" (some (constHandler true)) none "U"] "u"
             [("state_with_callback", "S")] with
           Data := { UserID := "u",
                     Current := [("state_with_callback", "S"), ("current_state", "T")] },
           Faults := [],
           Log := [Event.callback "S" (BotData.mk "u"
                     [("state_with_callback", "S"), ("current_state", "T")])] }) :=
  executeState_gate_fails
    (mkBot [mkState "S" none (some (constHandler false)) "",
      mkState "T" (some (constHandler true)) none "U"] "u" [("state_with_callback", "S")])
    (mkState "S" none (some (constHandler false)) "")
    (mkState "T" (some (constHandler true)) none "U")
    (constHandler false) (constHandler true)
    (by simp [UniqueNames, mkBot, mkState]) (by simp [mkBot]) (by simp [mkBot])
    rfl (fun _ => rfl) rfl (by simp [mkBot]) (by simp [Bot.Healthy, mkBot])
    (by simp [mkState]) rfl

/-- C5: for every defined state `T` with an action, with a user selected,
`state_with_callback` empty and the persistence layer reporting no failure,
`ExecuteState` of `T` invokes no callback and invokes the action of `T` exactly
once (the log grows by this one invocation), and returns `(r, nil)` where `r` is
the boolean that the action returned on the user data it was called with. -/
theorem executeState_no_pending (b : Bot) (T : State) (act : Handler)
    (hu : UniqueNames b.States) (hT : T ∈ b.States) (hact : T.Executes = some act)
    (huser : b.Data.UserID ≠ "") (hhealthy : b.Healthy)
    (hswc : b.stateWithCallback = "") :
    ∃ seen : BotData,
      (ExecuteState b T.Name).1 = ((act seen).1, none) ∧
      (ExecuteState b T.Name).2.Log = b.Log ++ [Event.action T.Name seen] := by
  have hh1 : (b.SetCurrentState T.Name).2.Healthy := healthy_of_faults_tail b _ hhealthy rfl
  have hswc1 : (b.SetCurrentState T.Name).2.stateWithCallback = "" := by
    rw [← hswc]
    exact getField_setData_other b.Data "current_state" T.Name "state_with_callback" b.answer
      (by decide)
  have hgate := executeCallback_none_pending (b.SetCurrentState T.Name).2 hswc1
  have hh2 : (executeCallback (b.SetCurrentState T.Name).2).2.Healthy :=
    healthy_of_faults_tail _ _ hh1 (executeCallback_faults _)
  have harm := armCallback_fst_of_answer _ T (healthy_answer _ hh2)
  have hpass : (executeCallback (b.SetCurrentState T.Name).2).1.1 = true := by rw [hgate]
  have hlog : (executeCallback (b.SetCurrentState T.Name).2).2.Log = b.Log := by rw [hgate]; rfl
  have hrun : ExecuteState b T.Name
      = runExecutes (armCallback (executeCallback (b.SetCurrentState T.Name).2).2 T).2 T act := by
    rw [executeState_unique b T hu hT, executeMatched, if_neg huser, hact]
    exact executeGated_pass _ T act hpass harm
  refine ⟨(armCallback (executeCallback (b.SetCurrentState T.Name).2).2 T).2.Data, ?_, ?_⟩
  · rw [hrun, runExecutes_fst]
  · rw [hrun, runExecutes_log, armCallback_log, hlog]

theorem executeState_no_pending_witness :
    ∃ seen : BotData,
      (ExecuteState (mkBot [mkState "ask" (some (constHandler false)) (some (constHandler true))
          "end"] "u" []) (mkState "ask" (some (constHandler false)) (some (constHandler true))
          "end").Name).1 = ((constHandler false seen).1, none) ∧
      (ExecuteState (mkBot [mkState "ask" (some (constHandler false)) (some (constHandler true))
          "end"] "u" []) (mkState "ask" (some (constHandler false)) (some (constHandler true))
          "end").Name).2.Log
        = (mkBot [mkState "ask" (some (constHandler false)) (some (constHandler true))
          "end"] "u" []).Log ++ [Event.action (mkState "ask" (some (constHandler false))
          (some (constHandler true)) "end").Name seen] :=
  executeState_no_pending
    (mkBot [mkState "ask" (some (constHandler false)) (some (constHandler true)) "end"] "u" [])
    (mkState "ask" (some (constHandler false)) (some (constHandler true)) "end")
    (constHandler false)
    (by simp [UniqueNames, mkBot, mkState]) (by simp [mkBot]) rfl (by simp [mkBot])
    (by simp [Bot.Healthy, mkBot]) rfl

/-- C6: for every defined state `T` that has both an action and a callback, with a user
selected, if `ExecuteState` of `T` passes the callback gate and returns without
error, the action not itself writing `state_with_callback`, then afterwards
`state_with_callback` equals the name of `T`, whatever its previous value and
whatever boolean the action returned; and the write happens before the action is
invoked: the action is the last function invoked and the user data it is called
with already has `state_with_callback` equal to the name of `T`. -/
theorem executeState_arms_callback (b : Bot) (T : State) (act cb : Handler)
    (hu : UniqueNames b.States) (hT : T ∈ b.States)
    (hact : T.Executes = some act) (hcb : T.Callback = some cb)
    (huser : b.Data.UserID ≠ "")
    (hgate : (executeCallback (b.SetCurrentState T.Name).2).1.1 = true)
    (hnoerr : (ExecuteState b T.Name).1.2 = none)
    (hkeep : KeepsStateWithCallback act) :
    (ExecuteState b T.Name).2.stateWithCallback = T.Name ∧
    ∃ seen : BotData,
      (ExecuteState b T.Name).2.Log
        = (executeCallback (b.SetCurrentState T.Name).2).2.Log ++ [Event.action T.Name seen] ∧
      seen.GetField "state_with_callback" = T.Name ∧
      (ExecuteState b T.Name).1.1 = (act seen).1 := by
  have hm : ExecuteState b T.Name = executeGated (b.SetCurrentState T.Name).2 T act := by
    rw [executeState_unique b T hu hT, executeMatched, if_neg huser, hact]
  have harm : (armCallback (executeCallback (b.SetCurrentState T.Name).2).2 T).1 = none := by
    cases h : (armCallback (executeCallback (b.SetCurrentState T.Name).2).2 T).1 with
    | none => rfl
    | some err =>
      rw [hm, executeGated_eq, if_neg (by simp [hgate])] at hnoerr
      simp only [h] at hnoerr
      exact Option.noConfusion hnoerr
  have hrun := executeGated_pass _ T act hgate harm
  have hans : (executeCallback (b.SetCurrentState T.Name).2).2.answer = none := by
    have h2 := harm
    simp only [armCallback, hcb, Bot.SetStateWithCallback, BotData.SetStateWithCallback,
      setData_fst] at h2
    exact h2
  have hswc : (armCallback (executeCallback (b.SetCurrentState T.Name).2).2 T).2.stateWithCallback
      = T.Name := by
    simp only [armCallback, hcb, Bot.SetStateWithCallback, BotData.SetStateWithCallback, hans,
      Bot.stateWithCallback]
    exact getField_setData_same _ _ _
  refine ⟨?_, (armCallback (executeCallback (b.SetCurrentState T.Name).2).2 T).2.Data, ?_,
    hswc, ?_⟩
  · rw [hm, hrun, runExecutes_stateWithCallback _ T act hkeep, hswc]
  · rw [hm, hrun, runExecutes_log, armCallback_log]
  · rw [hm, hrun, runExecutes_fst]

theorem executeState_arms_callback_witness :
    (ExecuteState (mkBot [mkState "ask" (some (constHandler false)) (some (constHandler true))
        "end"] "u" [("state_with_callback", "old")])
      (mkState "ask" (some (constHandler false)) (some (constHandler true)) "end").Name
      ).2.stateWithCallback
      = (mkState "ask" (some (constHandler false)) (some (constHandler true)) "end").Name :=
  (executeState_arms_callback
    (mkBot [mkState "ask" (some (constHandler false)) (some (constHandler true)) "end"] "u"
      [("state_with_callback", "old")])
    (mkState "ask" (some (constHandler false)) (some (constHandler true)) "end")
    (constHandler false) (constHandler true)
    (by simp [UniqueNames, mkBot, mkState]) (by simp [mkBot]) rfl rfl (by simp [mkBot])
    rfl rfl (fun _ => rfl)).1

/-- C7, as stated, fails: a pending callback that passes the gate may itself write
`current_state`; the action of `T` then returns `false` without writing
`current_state`, and `current_state` ends as the callback left it, not as `T`. -/
theorem executeState_callback_writes_current_state :
    (ExecuteState (mkBot [mkState "S" none (some (writeHandler "current_state" "X" true)) "",
        mkState "T" (some (constHandler false)) none "U"] "u" [("state_with_callback", "S")])
      "T").1 = (false, none) ∧
    (ExecuteState (mkBot [mkState "S" none (some (writeHandler "current_state" "X" true)) "",
        mkState "T" (some (constHandler false)) none "U"] "u" [("state_with_callback", "S")])
      "T").2.Log
      = [Event.callback "S" { UserID := "u", Current := [("state_with_callback", "S"),
            ("current_state", "T")] },
         Event.action "T" { UserID := "u", Current := [("state_with_callback", "S"),
            ("current_state", "X")] }] ∧
    (ExecuteState (mkBot [mkState "S" none (some (writeHandler "current_state" "X" true)) "",
        mkState "T" (some (constHandler false)) none "U"] "u" [("state_with_callback", "S")])
      "T").2.currentState = "X" := by
  refine ⟨rfl, rfl, rfl⟩

/-- C7, amended: for every defined state `T` with an action and next pointer `n`, with a
user selected and the persistence layer reporting no failure, when `ExecuteState`
of `T` passes the gate it runs the action and returns its boolean; if the action
returns `true` and `n` is non-empty then `current_state` ends as `n`; and if
neither the action nor the pending callback that passed the gate wrote
`current_state` (the action left the field as it found it, and so did the gate),
then `current_state` ends as `T` when the action returns `false` and when `n` is
empty. -/
theorem executeState_transition (b : Bot) (T : State) (act : Handler)
    (hu : UniqueNames b.States) (hT : T ∈ b.States) (hact : T.Executes = some act)
    (huser : b.Data.UserID ≠ "") (hhealthy : b.Healthy)
    (hgate : (executeCallback (b.SetCurrentState T.Name).2).1.1 = true) :
    ∃ seen : BotData,
      (ExecuteState b T.Name).1 = ((act seen).1, none) ∧
      (ExecuteState b T.Name).2.Log
        = (executeCallback (b.SetCurrentState T.Name).2).2.Log ++ [Event.action T.Name seen] ∧
      ((act seen).1 = true → T.Next ≠ "" → (ExecuteState b T.Name).2.currentState = T.Next) ∧
      ((act seen).2.GetCurrentState = seen.GetCurrentState →
        (executeCallback (b.SetCurrentState T.Name).2).2.currentState
          = (b.SetCurrentState T.Name).2.currentState →
        ((act seen).1 = false ∨ T.Next = "") →
        (ExecuteState b T.Name).2.currentState = T.Name) := by
  have hm : ExecuteState b T.Name = executeGated (b.SetCurrentState T.Name).2 T act := by
    rw [executeState_unique b T hu hT, executeMatched, if_neg huser, hact]
  have hh1 : (b.SetCurrentState T.Name).2.Healthy := healthy_of_faults_tail b _ hhealthy rfl
  have hh2 : (executeCallback (b.SetCurrentState T.Name).2).2.Healthy :=
    healthy_of_faults_tail _ _ hh1 (executeCallback_faults _)
  have harm := armCallback_fst_of_answer _ T (healthy_answer _ hh2)
  have hh3 := armCallback_healthy _ T hh2
  have hrun := executeGated_pass _ T act hgate harm
  refine ⟨(armCallback (executeCallback (b.SetCurrentState T.Name).2).2 T).2.Data, ?_, ?_, ?_, ?_⟩
  · rw [hm, hrun, runExecutes_fst]
  · rw [hm, hrun, runExecutes_log, armCallback_log]
  · intro htrue hnext
    rw [hm, hrun]
    exact runExecutes_currentState_next _ T act (healthy_answer _ hh3) htrue hnext
  · intro hkact hkcb hstay
    rw [hm, hrun, runExecutes_currentState_stay _ T act hkact hstay, armCallback_currentState,
      hkcb]
    exact setCurrentState_currentState b T.Name (healthy_answer b hhealthy)

theorem executeState_transition_witness :
    (ExecuteState (mkBot [mkState "T" (some (constHandler true)) none "U"] "u" [])
      (mkState "T" (some (constHandler true)) none "U").Name).2.currentState = "U" ∧
    (ExecuteState (mkBot [mkState "S" none (some (constHandler true)) "",
        mkState "T" (some (constHandler false)) none "U"] "u" [("state_with_callback", "S")])
      (mkState "T" (some (constHandler false)) none "U").Name).2.currentState = "T" := by
  obtain ⟨_, _, _, h3, _⟩ := executeState_transition
    (mkBot [mkState "T" (some (constHandler true)) none "U"] "u" [])
    (mkState "T" (some (constHandler true)) none "U") (constHandler true)
    (by simp [UniqueNames, mkBot, mkState]) (by simp [mkBot]) rfl (by simp [mkBot])
    (by simp [Bot.Healthy, mkBot]) rfl
  obtain ⟨_, _, _, _, k4⟩ := executeState_transition
    (mkBot [mkState "S" none (some (constHandler true)) "",
      mkState "T" (some (constHandler false)) none "U"] "u" [("state_with_callback", "S")])
    (mkState "T" (some (constHandler false)) none "U") (constHandler false)
    (by simp [UniqueNames, mkBot, mkState]) (by simp [mkBot]) rfl (by simp [mkBot])
    (by simp [Bot.Healthy, mkBot]) rfl
  exact ⟨h3 rfl (by simp [mkState]), k4 rfl rfl (Or.inl rfl)⟩

/-! ## The message buffer: `AddMessage` and `GetMessages` -/

theorem addMessage_eq (b : Bot) (ms : List GoString) (hlen : ¬ ms.length ≤ 0) :
    AddMessage goJSON b ms
      = (((GetMessages goJSON b).2.SetData [("messages",
            String.mk ('[' :: itemsJSON ((GetMessages goJSON b).1 ++ ms) ++ [']']))]).1,
         ((GetMessages goJSON b).2.SetData [("messages",
            String.mk ('[' :: itemsJSON ((GetMessages goJSON b).1 ++ ms) ++ [']']))]).2) := by
  unfold AddMessage
  rw [if_neg hlen]
  show (match ((GetMessages goJSON b).2.SetData [("messages",
      String.mk ('[' :: itemsJSON ((GetMessages goJSON b).1 ++ ms) ++ [']']))]).1 with
    | some err => (some err, _)
    | none => (none, _)) = _
  cases ((GetMessages goJSON b).2.SetData [("messages",
      String.mk ('[' :: itemsJSON ((GetMessages goJSON b).1 ++ ms) ++ [']']))]).1 <;> rfl

/-- C8, as stated, fails: a Go string need not be valid UTF-8, and `json.Marshal` writes
a byte that is not part of a valid encoding as the escape of U+FFFD.  From an
empty buffer, `AddMessage` of the one message made of the byte 0xFF succeeds, and
`GetMessages` then returns the message made of the three bytes of U+FFFD, not
the message that was added. -/
theorem addMessage_getMessages_invalid_utf8 :
    (mkBot [] "u" []).messages = "" ∧
    (AddMessage goJSON (mkBot [] "u" []) [[0xFF]]).1 = none ∧
    (AddMessage goJSON (mkBot [] "u" []) [[0xFF]]).2.messages = "[\"\\ufffd\"]" ∧
    (GetMessages goJSON (AddMessage goJSON (mkBot [] "u" []) [[0xFF]]).2).1
      = [[0xEF, 0xBF, 0xBD]] ∧
    (GetMessages goJSON (AddMessage goJSON (mkBot [] "u" []) [[0xFF]]).2).1
      ≠ [] ++ [[0xFF]] := by
  refine ⟨rfl, rfl, rfl, rfl, ?_⟩
  have h : (GetMessages goJSON (AddMessage goJSON (mkBot [] "u" []) [[0xFF]]).2).1
      = [[0xEF, 0xBF, 0xBD]] := rfl
  rw [h]
  decide

/-- C8, amended: `AddMessage` followed by `GetMessages` round-trips and preserves order
for messages that are valid UTF-8.  For every bot whose buffer decodes as the list
`xs` (or does not decode, as the empty buffer, and `xs = []`) and every non-empty
list `ys` of valid UTF-8 messages, `AddMessage` of `ys` returns the answer of the
persistence layer to its write, and when it returns a nil error `GetMessages`
then returns exactly `xs ++ ys`. -/
theorem addMessage_getMessages (b : Bot) (xs ys : List String)
    (hbuf : goJSON.Unmarshal b.messages = Except.ok (xs.map utf8) ∨
      (xs = [] ∧ ∃ e, goJSON.Unmarshal b.messages = Except.error e))
    (hys : ys ≠ []) :
    (AddMessage goJSON b (ys.map utf8)).1 = (GetMessages goJSON b).2.answer ∧
    ((AddMessage goJSON b (ys.map utf8)).1 = none →
      (GetMessages goJSON (AddMessage goJSON b (ys.map utf8)).2).1 = (xs ++ ys).map utf8) := by
  have hlen : ¬ (ys.map utf8).length ≤ 0 := by
    cases ys with
    | nil => exact absurd rfl hys
    | cons y rest => simp
  have hg1 : (GetMessages goJSON b).1 = xs.map utf8 := by
    rcases hbuf with h | ⟨hx, e, h⟩
    · exact getMessages_fst_ok goJSON b _ h
    · rw [hx]; exact getMessages_fst_error goJSON b e h
  have hcat : (GetMessages goJSON b).1 ++ ys.map utf8 = (xs ++ ys).map utf8 := by
    rw [hg1, List.map_append]
  rw [addMessage_eq b (ys.map utf8) hlen, hcat]
  constructor
  · exact setData_fst _ _ _
  · intro hnil
    have hans : (GetMessages goJSON b).2.answer = none := by
      rw [← hnil]
      exact (setData_fst _ _ _).symm
    apply getMessages_fst_ok
    rw [setData_messages _ _ hans]
    obtain ⟨j, hj, hr⟩ := goJSON_roundtrip (xs ++ ys)
    have hj2 : j = String.mk ('[' :: itemsJSON ((xs ++ ys).map utf8) ++ [']']) :=
      (Except.ok.inj hj).symm
    rw [← hj2]
    exact hr

theorem addMessage_getMessages_witness :
    (GetMessages goJSON
      (AddMessage goJSON (AddMessage goJSON (mkBot [] "u" []) (["a", "b"].map utf8)).2
        (["c"].map utf8)).2).1
      = (["a", "b"] ++ ["c"]).map utf8 :=
  (addMessage_getMessages (AddMessage goJSON (mkBot [] "u" []) (["a", "b"].map utf8)).2
    ["a", "b"] ["c"] (Or.inl rfl) (by decide)).2 rfl

/-- C9, as stated, fails: the error of the clearing write is dropped, and when the
persistence layer fails this write the buffer is not cleared; the second
`GetMessages` then returns the same list again, not the empty list. -/
theorem getMessages_clearing_write_fails :
    (GetMessages goJSON { mkBot [] "u" [("messages", "[\"a\"]")] with
        Faults := [some "store unavailable"] }).1 = [[97]] ∧
    (GetMessages goJSON { mkBot [] "u" [("messages", "[\"a\"]")] with
        Faults := [some "store unavailable"] }).2.messages = "[\"a\"]" ∧
    (GetMessages goJSON (GetMessages goJSON { mkBot [] "u" [("messages", "[\"a\"]")] with
        Faults := [some "store unavailable"] }).2).1 = [[97]] := by
  refine ⟨rfl, rfl, rfl⟩

/-- C9, amended: `GetMessages` is a destructive read when its clearing write succeeds.
For every bot whose persistence layer answers the write of `GetMessages` with
success, `encoding/json` rejecting the empty text, after one `GetMessages` the
stored `messages` field is cleared, so a second `GetMessages` immediately after
returns the empty list; hence whenever the first call returned a non-empty list
the second call returns something else. -/
theorem getMessages_destructive (c : JSON) (b : Bot)
    (hwrite : b.answer = none) (hempty : ∃ e, c.Unmarshal "" = Except.error e) :
    (GetMessages c b).2.messages = "" ∧
    (GetMessages c (GetMessages c b).2).1 = [] ∧
    ((GetMessages c b).1 ≠ [] →
      (GetMessages c (GetMessages c b).2).1 ≠ (GetMessages c b).1) := by
  have hclear : (GetMessages c b).2.messages = "" := by
    rw [getMessages_snd]
    exact setData_messages b "" hwrite
  have hsecond : (GetMessages c (GetMessages c b).2).1 = [] := by
    obtain ⟨e, he⟩ := hempty
    apply getMessages_fst_error c _ e
    rw [hclear]
    exact he
  refine ⟨hclear, hsecond, ?_⟩
  intro hne heq
  exact hne (heq ▸ hsecond)

theorem getMessages_destructive_witness :
    (GetMessages goJSON (mkBot [] "u" [("messages", "[\"a\"]")])).1 = [utf8 "a"] ∧
    (GetMessages goJSON (mkBot [] "u" [("messages", "[\"a\"]")])).2.messages = "" ∧
    (GetMessages goJSON
      (GetMessages goJSON (mkBot [] "u" [("messages", "[\"a\"]")])).2).1 = [] :=
  ⟨rfl,
   (getMessages_destructive goJSON (mkBot [] "u" [("messages", "[\"a\"]")])
     rfl ⟨"invalid JSON input for a list of strings", rfl⟩).1,
   (getMessages_destructive goJSON (mkBot [] "u" [("messages", "[\"a\"]")])
     rfl ⟨"invalid JSON input for a list of strings", rfl⟩).2.1⟩

/-- C10: for every bot, `AddMessage` called with an empty list of messages fails with
the `EmptyInput` error and leaves the bot as it found it: the stored `messages`
field and the rest of the store are unchanged, and no store operation is made. -/
theorem addMessage_empty (c : JSON) (b : Bot) :
    AddMessage c b [] = (some EmptyInput, b) := by
  simp [AddMessage]

/-! ## The log of the invocations -/

theorem setCurrentState_log (b : Bot) (name : String) : (b.SetCurrentState name).2.Log = b.Log :=
  rfl

theorem setCurrentState_states (b : Bot) (name : String) :
    (b.SetCurrentState name).2.States = b.States :=
  rfl

theorem setCurrentState_faults (b : Bot) (name : String) :
    (b.SetCurrentState name).2.Faults = b.Faults.tail :=
  rfl

theorem setCurrentState_userID (b : Bot) (name : String) :
    (b.SetCurrentState name).2.Data.UserID = b.Data.UserID :=
  userID_setData b.Data _ b.answer

theorem setCurrentState_stateWithCallback (b : Bot) (name : String) :
    (b.SetCurrentState name).2.stateWithCallback = b.stateWithCallback :=
  getField_setData_other b.Data "current_state" name "state_with_callback" b.answer (by decide)

theorem executeGated_log (b : Bot) (T : State) (act : Handler) :
    (executeGated b T act).2.Log = (executeCallback b).2.Log ∨
    (executeGated b T act).2.Log
      = (executeCallback b).2.Log
        ++ [Event.action T.Name (armCallback (executeCallback b).2 T).2.Data] := by
  rw [executeGated_eq]
  by_cases hgate : (executeCallback b).1.1 = false
  · rw [if_pos hgate]
    exact Or.inl rfl
  · rw [if_neg hgate]
    cases harm : (armCallback (executeCallback b).2 T).1 with
    | some err =>
      simp only []
      exact Or.inl (armCallback_log _ T)
    | none =>
      simp only []
      exact Or.inr (by rw [runExecutes_log, armCallback_log])

theorem executeMatched_eq_gated (b : Bot) (T : State) (act : Handler)
    (huser : b.Data.UserID ≠ "") (hact : T.Executes = some act) :
    executeMatched b T = executeGated (b.SetCurrentState T.Name).2 T act := by
  rw [executeMatched, if_neg huser, hact]

/-! ## The message buffer and the store errors -/

/-- C11, as stated, fails: on a stored value that does not decode, `GetMessages`
returns the empty list, but the error of the clearing write is dropped, and when
the persistence layer fails this write the stored buffer is not cleared. -/
theorem getMessages_decode_failure_not_cleared :
    (∃ e, goJSON.Unmarshal ({ mkBot [] "u" [("messages", "[\"a\",7]")] with
        Faults := [some "store unavailable"] } : Bot).messages = Except.error e) ∧
    (GetMessages goJSON { mkBot [] "u" [("messages", "[\"a\",7]")] with
        Faults := [some "store unavailable"] }).1 = [] ∧
    (GetMessages goJSON { mkBot [] "u" [("messages", "[\"a\",7]")] with
        Faults := [some "store unavailable"] }).2.messages = "[\"a\",7]" := by
  refine ⟨⟨"invalid JSON input for a list of strings", rfl⟩, rfl, rfl⟩

/-- C11, amended: for every bot whose stored `messages` value does not decode as a list
of strings (`encoding/json` returns an error on it, as it does on the absent or
empty value), `GetMessages` returns the empty list, whatever the persistence layer
answers; its only result is the list, so no error is signalled; and when the
persistence layer answers the clearing write with success the stored buffer is
cleared all the same. -/
theorem getMessages_decode_failure (c : JSON) (b : Bot)
    (hdec : ∃ e, c.Unmarshal b.messages = Except.error e) :
    (GetMessages c b).1 = [] ∧ (b.answer = none → (GetMessages c b).2.messages = "") := by
  obtain ⟨e, he⟩ := hdec
  refine ⟨getMessages_fst_error c b e he, ?_⟩
  intro hwrite
  rw [getMessages_snd]
  exact setData_messages b "" hwrite

theorem getMessages_decode_failure_witness :
    ((GetMessages goJSON (mkBot [] "u" [("messages", "[\"a\",7]")])).1 = [] ∧
      (GetMessages goJSON (mkBot [] "u" [("messages", "[\"a\",7]")])).2.messages = "") ∧
    ((GetMessages goJSON (mkBot [] "u" [])).1 = [] ∧
      (GetMessages goJSON (mkBot [] "u" [])).2.messages = "") :=
  ⟨⟨(getMessages_decode_failure goJSON (mkBot [] "u" [("messages", "[\"a\",7]")])
      ⟨"invalid JSON input for a list of strings", rfl⟩).1,
    (getMessages_decode_failure goJSON (mkBot [] "u" [("messages", "[\"a\",7]")])
      ⟨"invalid JSON input for a list of strings", rfl⟩).2 rfl⟩,
   ⟨(getMessages_decode_failure goJSON (mkBot [] "u" [])
      ⟨"invalid JSON input for a list of strings", rfl⟩).1,
    (getMessages_decode_failure goJSON (mkBot [] "u" [])
      ⟨"invalid JSON input for a list of strings", rfl⟩).2 rfl⟩⟩

/-- C12, at the failing inputs: the state `T` is defined with an action and a user is
selected.  When the persistence layer answers `SetCurrentState` with an error,
`ExecuteState` discards it, runs the action and returns `(true, nil)`; and when it
answers `GetStateWithCallback` with an error, `executeCallback` discards it and
`ExecuteState` again runs the action and returns `(true, nil)`.  Only the error of
`SetStateWithCallback` reaches the caller. -/
theorem executeState_discards_store_errors :
    (ExecuteState { mkBot [mkState "T" (some (constHandler true)) none ""] "u" [] with
        Faults := [some "store unavailable"] } "T").1 = (true, none) ∧
    (ExecuteState { mkBot [mkState "T" (some (constHandler true)) none ""] "u" [] with
        Faults := [some "store unavailable"] } "T").2.Log
      = [Event.action "T" (BotData.mk "u" [])] ∧
    (ExecuteState { mkBot [mkState "T" (some (constHandler true)) none ""] "u" [] with
        Faults := [none, some "store unavailable"] } "T").1 = (true, none) ∧
    (ExecuteState { mkBot [mkState "T" (some (constHandler true)) (some (constHandler true))
        ""] "u" [] with
        Faults := [none, none, some "store unavailable"] } "T").1
      = (false, some "store unavailable") := by
  refine ⟨rfl, rfl, rfl, rfl⟩

/-- C13: for every defined state `T` that has an action and a callback, with a user
selected, if the gate passes and persisting `T` as `state_with_callback` fails with
the error `e`, then `ExecuteState` of `T` returns `(false, e)`, and nothing is
invoked after the gate: the log is the one the gate left, so the action of `T` is
never invoked. -/
theorem executeState_arm_failure (b : Bot) (T : State) (act cb : Handler) (e : Error)
    (hu : UniqueNames b.States) (hT : T ∈ b.States)
    (hact : T.Executes = some act) (hcb : T.Callback = some cb)
    (huser : b.Data.UserID ≠ "")
    (hgate : (executeCallback (b.SetCurrentState T.Name).2).1.1 = true)
    (hfail : ((executeCallback (b.SetCurrentState T.Name).2).2.SetStateWithCallback T.Name).1
      = some e) :
    (ExecuteState b T.Name).1 = (false, some e) ∧
    (ExecuteState b T.Name).2.Log = (executeCallback (b.SetCurrentState T.Name).2).2.Log ∧
    ∀ seen, Event.action T.Name seen ∉
      (ExecuteState b T.Name).2.Log.drop (executeCallback (b.SetCurrentState T.Name).2).2.Log.length
    := by
  have harm : (armCallback (executeCallback (b.SetCurrentState T.Name).2).2 T).1 = some e := by
    simp only [armCallback, hcb]
    exact hfail
  have hres : ExecuteState b T.Name
      = ((false, some e), (armCallback (executeCallback (b.SetCurrentState T.Name).2).2 T).2) := by
    rw [executeState_unique b T hu hT, executeMatched_eq_gated b T act huser hact,
      executeGated_eq, if_neg (by simp [hgate])]
    simp only [harm]
  have hlog : (ExecuteState b T.Name).2.Log
      = (executeCallback (b.SetCurrentState T.Name).2).2.Log := by
    rw [hres]
    exact armCallback_log _ T
  refine ⟨by rw [hres], hlog, ?_⟩
  intro seen
  rw [hlog, List.drop_length]
  exact List.not_mem_nil _

theorem executeState_arm_failure_witness :
    (ExecuteState { mkBot [mkState "T" (some (constHandler true)) (some (constHandler true))
        ""] "u" [] with Faults := [none, none, some "store unavailable"] }
      (mkState "T" (some (constHandler true)) (some (constHandler true)) "").Name).1
      = (false, some "store unavailable") :=
  (executeState_arm_failure
    { mkBot [mkState "T" (some (constHandler true)) (some (constHandler true)) ""] "u" [] with
      Faults := [none, none, some "store unavailable"] }
    (mkState "T" (some (constHandler true)) (some (constHandler true)) "")
    (constHandler true) (constHandler true) "store unavailable"
    (by simp [UniqueNames, mkBot, mkState]) (by simp [mkBot]) rfl rfl (by simp [mkBot])
    rfl rfl).1

/-! ## The pending callback -/

theorem executeState_log_pending (b : Bot) (S T : State) (cb act : Handler)
    (hu : UniqueNames b.States) (hS : S ∈ b.States) (hT : T ∈ b.States)
    (hcb : S.Callback = some cb) (hname : S.Name ≠ "") (hact : T.Executes = some act)
    (huser : b.Data.UserID ≠ "") (hread : (b.SetCurrentState T.Name).2.answer = none)
    (hswc : b.stateWithCallback = S.Name) :
    ∃ rest, (ExecuteState b T.Name).2.Log
      = b.Log ++ Event.callback S.Name (b.SetCurrentState T.Name).2.Data :: rest := by
  have hgate := executeCallback_pending (b.SetCurrentState T.Name).2 S cb hu hS hcb hname hread
    ((setCurrentState_stateWithCallback b T.Name).trans hswc)
  have hlog : (executeCallback (b.SetCurrentState T.Name).2).2.Log
      = b.Log ++ [Event.callback S.Name (b.SetCurrentState T.Name).2.Data] := by
    rw [hgate]
    rfl
  rw [executeState_unique b T hu hT, executeMatched_eq_gated b T act huser hact]
  rcases executeGated_log (b.SetCurrentState T.Name).2 T act with h | h
  · exact ⟨[], by rw [h, hlog]⟩
  · exact ⟨[Event.action T.Name
      (armCallback (executeCallback (b.SetCurrentState T.Name).2).2 T).2.Data],
      by rw [h, hlog, List.append_assoc]; rfl⟩

/-- C14, as stated, fails: with a callback of `S` pending and a user selected, an
`ExecuteState` call for a name that matches no state, and one for a state that has
no action, return their error before the gate: the callback of `S` is not
invoked. -/
theorem executeState_pending_not_invoked :
    (mkBot [mkState "S" (some (constHandler true)) (some (constHandler true)) "",
        mkState "bare" none none ""] "u" [("state_with_callback", "S")]).stateWithCallback
      = "S" ∧
    ExecuteState (mkBot [mkState "S" (some (constHandler true)) (some (constHandler true)) "",
        mkState "bare" none none ""] "u" [("state_with_callback", "S")]) "nowhere"
      = ((false, some (UnknownState "nowhere")),
         mkBot [mkState "S" (some (constHandler true)) (some (constHandler true)) "",
           mkState "bare" none none ""] "u" [("state_with_callback", "S")]) ∧
    ExecuteState (mkBot [mkState "S" (some (constHandler true)) (some (constHandler true)) "",
        mkState "bare" none none ""] "u" [("state_with_callback", "S")]) "bare"
      = ((false, some (MissingAction "bare")),
         mkBot [mkState "S" (some (constHandler true)) (some (constHandler true)) "",
           mkState "bare" none none ""] "u" [("state_with_callback", "S")]) ∧
    (ExecuteState (mkBot [mkState "S" (some (constHandler true)) (some (constHandler true)) "",
        mkState "bare" none none ""] "u" [("state_with_callback", "S")]) "nowhere").2.Log
      = [] := by
  refine ⟨rfl, rfl, rfl, rfl⟩

/-- C14, amended: whenever a callback is pending (`state_with_callback` is the non-empty
name of a state `S` that has a callback), with a user selected and the persistence
layer reporting no failure, the gate check happens on every `ExecuteState` call
that requests a defined state with an action, whichever it is: the first function
invoked during the call is the callback of `S`, the state named by the stored
`state_with_callback`, not the one of the requested state. -/
theorem executeState_pending_callback_invoked (b : Bot) (S T : State) (cb act : Handler)
    (hu : UniqueNames b.States) (hS : S ∈ b.States) (hT : T ∈ b.States)
    (hcb : S.Callback = some cb) (hname : S.Name ≠ "") (hact : T.Executes = some act)
    (huser : b.Data.UserID ≠ "") (hhealthy : b.Healthy)
    (hswc : b.stateWithCallback = S.Name) :
    ∃ seen rest, (ExecuteState b T.Name).2.Log = b.Log ++ Event.callback S.Name seen :: rest := by
  have hh1 : (b.SetCurrentState T.Name).2.Healthy := healthy_of_faults_tail b _ hhealthy rfl
  obtain ⟨rest, h⟩ := executeState_log_pending b S T cb act hu hS hT hcb hname hact huser
    (healthy_answer _ hh1) hswc
  exact ⟨_, rest, h⟩

theorem executeState_pending_callback_invoked_witness :
    ∃ seen rest,
      (ExecuteState (mkBot [mkState "S" none (some (constHandler true)) "",
          mkState "T" (some (constHandler true)) (some (constHandler false)) ""] "u"
          [("state_with_callback", "S")])
        (mkState "T" (some (constHandler true)) (some (constHandler false)) "").Name).2.Log
      = (mkBot [mkState "S" none (some (constHandler true)) "",
          mkState "T" (some (constHandler true)) (some (constHandler false)) ""] "u"
          [("state_with_callback", "S")]).Log
        ++ Event.callback (mkState "S" none (some (constHandler true)) "").Name seen :: rest :=
  executeState_pending_callback_invoked
    (mkBot [mkState "S" none (some (constHandler true)) "",
      mkState "T" (some (constHandler true)) (some (constHandler false)) ""] "u"
      [("state_with_callback", "S")])
    (mkState "S" none (some (constHandler true)) "")
    (mkState "T" (some (constHandler true)) (some (constHandler false)) "")
    (constHandler true) (constHandler true)
    (by simp [UniqueNames, mkBot, mkState]) (by simp [mkBot]) (by simp [mkBot])
    rfl (by simp [mkState]) rfl (by simp [mkBot]) (by simp [Bot.Healthy, mkBot]) rfl

/-- C17, as stated, fails: the pending callback that fails the gate may itself write
`current_state`; `ExecuteState` then returns `(false, nil)` and `current_state` is
left as the callback wrote it, not equal to `T`. -/
theorem executeState_failing_callback_writes_current_state :
    (ExecuteState (mkBot [mkState "S" none (some (writeHandler "current_state" "X" false)) "",
        mkState "T" (some (constHandler true)) none ""] "u" [("state_with_callback", "S")])
      "T").1 = (false, none) ∧
    (ExecuteState (mkBot [mkState "S" none (some (writeHandler "current_state" "X" false)) "",
        mkState "T" (some (constHandler true)) none ""] "u" [("state_with_callback", "S")])
      "T").2.Log
      = [Event.callback "S" (BotData.mk "u" [("state_with_callback", "S"),
          ("current_state", "T")])] ∧
    (ExecuteState (mkBot [mkState "S" none (some (writeHandler "current_state" "X" false)) "",
        mkState "T" (some (constHandler true)) none ""] "u" [("state_with_callback", "S")])
      "T").2.currentState = "X" := by
  refine ⟨rfl, rfl, rfl⟩

/-- C17, amended: `current_state` is persisted as the requested name before the gate or
the action runs.  For every defined state `T` with an action, a selected user and
the persistence layer reporting no failure: when a callback is pending, the first
function invoked is this callback and the user data it is called with has
`current_state` equal to `T`; and when the gate fails, the callback that failed it
not itself writing `current_state` (the gate leaves the field as it found it),
`ExecuteState` returns `(false, nil)` and `current_state` is left equal to `T`, not
to its previous value. -/
theorem executeState_records_current_state (b : Bot) (T : State) (act : Handler)
    (hu : UniqueNames b.States) (hT : T ∈ b.States) (hact : T.Executes = some act)
    (huser : b.Data.UserID ≠ "") (hhealthy : b.Healthy) :
    (∀ S cb, S ∈ b.States → S.Callback = some cb → S.Name ≠ "" →
      b.stateWithCallback = S.Name →
      ∃ seen rest,
        (ExecuteState b T.Name).2.Log = b.Log ++ Event.callback S.Name seen :: rest ∧
        seen.GetCurrentState = T.Name) ∧
    ((executeCallback (b.SetCurrentState T.Name).2).1.1 = false →
      (executeCallback (b.SetCurrentState T.Name).2).2.currentState
        = (b.SetCurrentState T.Name).2.currentState →
      (ExecuteState b T.Name).1 = (false, none) ∧
      (ExecuteState b T.Name).2.currentState = T.Name) := by
  have hh1 : (b.SetCurrentState T.Name).2.Healthy := healthy_of_faults_tail b _ hhealthy rfl
  have hcs : (b.SetCurrentState T.Name).2.currentState = T.Name :=
    setCurrentState_currentState b T.Name (healthy_answer b hhealthy)
  constructor
  · intro S cb hS hcb hname hswc
    obtain ⟨rest, h⟩ := executeState_log_pending b S T cb act hu hS hT hcb hname hact huser
      (healthy_answer _ hh1) hswc
    exact ⟨_, rest, h, hcs⟩
  · intro hfail hkeep
    have hres : ExecuteState b T.Name
        = ((false, none), (executeCallback (b.SetCurrentState T.Name).2).2) := by
      rw [executeState_unique b T hu hT, executeMatched_eq_gated b T act huser hact,
        executeGated_eq, if_pos hfail]
    rw [hres]
    refine ⟨rfl, ?_⟩
    show (executeCallback (b.SetCurrentState T.Name).2).2.currentState = T.Name
    rw [hkeep]
    exact hcs

theorem executeState_records_current_state_witness :
    (ExecuteState (mkBot [mkState "S" none (some (constHandler false)) "",
        mkState "T" (some (constHandler true)) none ""] "u"
        [("state_with_callback", "S"), ("current_state", "old")])
      (mkState "T" (some (constHandler true)) none "").Name).1 = (false, none) ∧
    (ExecuteState (mkBot [mkState "S" none (some (constHandler false)) "",
        mkState "T" (some (constHandler true)) none ""] "u"
        [("state_with_callback", "S"), ("current_state", "old")])
      (mkState "T" (some (constHandler true)) none "").Name).2.currentState
      = (mkState "T" (some (constHandler true)) none "").Name := by
  refine (executeState_records_current_state
    (mkBot [mkState "S" none (some (constHandler false)) "",
      mkState "T" (some (constHandler true)) none ""] "u"
      [("state_with_callback", "S"), ("current_state", "old")])
    (mkState "T" (some (constHandler true)) none "") (constHandler true)
    (by simp [UniqueNames, mkBot, mkState]) (by simp [mkBot]) rfl (by simp [mkBot])
    (by simp [Bot.Healthy, mkBot])).2 rfl rfl

/-! ## What `ExecuteState` leaves behind -/

theorem runExecutes_states (b : Bot) (T : State) (act : Handler) :
    (runExecutes b T act).2.States = b.States := by
  unfold runExecutes
  dsimp only
  split <;> rfl

theorem runExecutes_healthy (b : Bot) (T : State) (act : Handler) (h : b.Healthy) :
    (runExecutes b T act).2.Healthy := by
  unfold runExecutes
  dsimp only
  split
  · exact healthy_of_faults_tail b _ h rfl
  · exact healthy_of_faults_eq b _ h rfl

theorem executeCallback_healthy (b : Bot) (h : b.Healthy) : (executeCallback b).2.Healthy :=
  healthy_of_faults_tail b _ h (executeCallback_faults b)

theorem executeGated_states (b : Bot) (T : State) (act : Handler) :
    (executeGated b T act).2.States = b.States := by
  rw [executeGated_eq]
  by_cases hgate : (executeCallback b).1.1 = false
  · rw [if_pos hgate]
    exact executeCallback_states b
  · rw [if_neg hgate]
    cases harm : (armCallback (executeCallback b).2 T).1 with
    | some err =>
      simp only []
      rw [armCallback_states, executeCallback_states]
    | none =>
      simp only []
      rw [runExecutes_states, armCallback_states, executeCallback_states]

theorem executeGated_healthy (b : Bot) (T : State) (act : Handler) (h : b.Healthy) :
    (executeGated b T act).2.Healthy := by
  rw [executeGated_eq]
  by_cases hgate : (executeCallback b).1.1 = false
  · rw [if_pos hgate]
    exact executeCallback_healthy b h
  · rw [if_neg hgate]
    cases harm : (armCallback (executeCallback b).2 T).1 with
    | some err =>
      simp only []
      exact armCallback_healthy _ T (executeCallback_healthy b h)
    | none =>
      simp only []
      exact runExecutes_healthy _ T act (armCallback_healthy _ T (executeCallback_healthy b h))

theorem executeMatched_cases (b : Bot) (T : State) :
    (∃ e, executeMatched b T = ((false, some e), b)) ∨
    ∃ act, T.Executes = some act ∧ b.Data.UserID ≠ "" ∧
      executeMatched b T = executeGated (b.SetCurrentState T.Name).2 T act := by
  by_cases huser : b.Data.UserID = ""
  · exact Or.inl ⟨NoActiveUser T.Name, by rw [executeMatched, if_pos huser]⟩
  · cases hact : T.Executes with
    | none => exact Or.inl ⟨MissingAction T.Name, by rw [executeMatched, if_neg huser, hact]⟩
    | some act => exact Or.inr ⟨act, rfl, huser, executeMatched_eq_gated b T act huser hact⟩

theorem executeState_cases (b : Bot) (name : String) :
    (∃ e, ExecuteState b name = ((false, some e), b)) ∨
    ∃ T ∈ b.States, ∃ act, T.Name = name ∧ T.Executes = some act ∧ b.Data.UserID ≠ "" ∧
      ExecuteState b name = executeGated (b.SetCurrentState T.Name).2 T act := by
  by_cases hex : ∃ s ∈ b.States, s.Name = name
  · obtain ⟨T, hT, hn, heq⟩ := executeStateLoop_first_match b name b.States hex
    rcases executeMatched_cases b T with ⟨e, he⟩ | ⟨act, hact, huser, hg⟩
    · exact Or.inl ⟨e, by rw [ExecuteState, heq, he]⟩
    · exact Or.inr ⟨T, hT, act, hn, hact, huser, by rw [ExecuteState, heq, hg]⟩
  · have hno : ∀ s ∈ b.States, s.Name ≠ name := fun s hs hn => hex ⟨s, hs, hn⟩
    exact Or.inl ⟨UnknownState name, executeStateLoop_no_match b name b.States hno⟩

theorem executeState_states (b : Bot) (name : String) :
    (ExecuteState b name).2.States = b.States := by
  rcases executeState_cases b name with ⟨e, he⟩ | ⟨T, _, act, _, _, _, hg⟩
  · rw [he]
  · rw [hg, executeGated_states]
    rfl

theorem executeState_healthy (b : Bot) (name : String) (h : b.Healthy) :
    (ExecuteState b name).2.Healthy := by
  rcases executeState_cases b name with ⟨e, he⟩ | ⟨T, _, act, _, _, _, hg⟩
  · rw [he]
    exact h
  · rw [hg]
    exact executeGated_healthy _ T act (healthy_of_faults_tail b _ h rfl)

theorem executeCallback_stateWithCallback (b : Bot)
    (hcb : ∀ s ∈ b.States, ∀ cb, s.Callback = some cb → KeepsStateWithCallback cb) :
    (executeCallback b).2.stateWithCallback = b.stateWithCallback := by
  rcases executeCallback_cases b with h | ⟨s, hs, cb, hc, _, _, _, h⟩
  · rw [h]; rfl
  · rw [h]; exact hcb s hs cb hc b.Data

theorem armCallback_stateWithCallback (b : Bot) (T : State) :
    (armCallback b T).2.stateWithCallback = b.stateWithCallback ∨
    (armCallback b T).2.stateWithCallback = T.Name := by
  unfold armCallback
  cases T.Callback with
  | none => exact Or.inl rfl
  | some cb =>
    cases hans : b.answer with
    | none =>
      refine Or.inr ?_
      show (b.Data.SetData [("state_with_callback", T.Name)] b.answer).2.GetField
        "state_with_callback" = T.Name
      rw [hans]
      exact getField_setData_same _ _ _
    | some e =>
      refine Or.inl ?_
      show (b.Data.SetData [("state_with_callback", T.Name)] b.answer).2.GetField
        "state_with_callback" = b.Data.GetField "state_with_callback"
      rw [hans]
      rfl

theorem armCallback_of_no_callback (b : Bot) (T : State) (h : T.Callback = none) :
    armCallback b T = (none, b) := by
  unfold armCallback
  rw [h]

theorem executeGated_stateWithCallback (b : Bot) (T : State) (act : Handler)
    (hact : KeepsStateWithCallback act)
    (hcb : ∀ s ∈ b.States, ∀ cb, s.Callback = some cb → KeepsStateWithCallback cb) :
    (executeGated b T act).2.stateWithCallback = b.stateWithCallback ∨
    ((executeGated b T act).2.stateWithCallback = T.Name ∧ T.Callback ≠ none) := by
  have hgate := executeCallback_stateWithCallback b hcb
  have harm2 : (armCallback (executeCallback b).2 T).2.stateWithCallback = b.stateWithCallback ∨
      ((armCallback (executeCallback b).2 T).2.stateWithCallback = T.Name ∧
        T.Callback ≠ none) := by
    cases hc : T.Callback with
    | none =>
      rw [armCallback_of_no_callback _ T hc]
      exact Or.inl hgate
    | some cb =>
      rcases armCallback_stateWithCallback (executeCallback b).2 T with h | h
      · exact Or.inl (h.trans hgate)
      · exact Or.inr ⟨h, by simp⟩
  rw [executeGated_eq]
  by_cases hg : (executeCallback b).1.1 = false
  · rw [if_pos hg]
    exact Or.inl hgate
  · rw [if_neg hg]
    cases harm : (armCallback (executeCallback b).2 T).1 with
    | some err =>
      simp only []
      exact harm2
    | none =>
      simp only []
      rw [runExecutes_stateWithCallback _ T act hact]
      exact harm2

theorem executeState_stateWithCallback (b : Bot) (name : String)
    (hact : ∀ s ∈ b.States, ∀ f, s.Executes = some f → KeepsStateWithCallback f)
    (hcb : ∀ s ∈ b.States, ∀ f, s.Callback = some f → KeepsStateWithCallback f) :
    (ExecuteState b name).2.stateWithCallback = b.stateWithCallback ∨
    ∃ T ∈ b.States, T.Name = name ∧ T.Callback ≠ none ∧
      (ExecuteState b name).2.stateWithCallback = T.Name := by
  rcases executeState_cases b name with ⟨e, he⟩ | ⟨T, hT, act, hn, hTact, _, hg⟩
  · rw [he]
    exact Or.inl rfl
  · rw [hg]
    rcases executeGated_stateWithCallback (b.SetCurrentState T.Name).2 T act
      (hact T hT act hTact) hcb with h | ⟨h, hc⟩
    · exact Or.inl (h.trans (setCurrentState_stateWithCallback b T.Name))
    · exact Or.inr ⟨T, hT, hn, hc, h⟩

/-- C18: `ExecuteState` preserves the invariant of section 3 on `state_with_callback`.
If before the call `state_with_callback` is empty or names a state present in the
collection, then after the call, for every requested name, every answer of the
persistence layer and every outcome, with actions and callbacks that do not write
`state_with_callback` themselves, it is still empty or names a state present in
the collection, which is unchanged. -/
theorem executeState_preserves_pendingValid (b : Bot) (name : String)
    (hinv : PendingValid b)
    (hact : ∀ s ∈ b.States, ∀ f, s.Executes = some f → KeepsStateWithCallback f)
    (hcb : ∀ s ∈ b.States, ∀ f, s.Callback = some f → KeepsStateWithCallback f) :
    PendingValid (ExecuteState b name).2 := by
  unfold PendingValid at *
  rw [executeState_states]
  rcases executeState_stateWithCallback b name hact hcb with h | ⟨T, hT, _, _, h⟩
  · rw [h]
    exact hinv
  · exact Or.inr ⟨T, hT, h.symm⟩

theorem executeState_preserves_pendingValid_witness :
    PendingValid (ExecuteState (mkBot [mkState "S" none (some (constHandler true)) "",
        mkState "T" (some (constHandler true)) (some (constHandler true)) ""] "u"
        [("state_with_callback", "S")]) "T").2 := by
  refine executeState_preserves_pendingValid
    (mkBot [mkState "S" none (some (constHandler true)) "",
      mkState "T" (some (constHandler true)) (some (constHandler true)) ""] "u"
      [("state_with_callback", "S")]) "T"
    (Or.inr ⟨mkState "S" none (some (constHandler true)) "", by simp [mkBot], rfl⟩) ?_ ?_
  · intro s hs f hf d
    have hs2 : s = mkState "S" none (some (constHandler true)) "" ∨
        s = mkState "T" (some (constHandler true)) (some (constHandler true)) "" := by
      simpa [mkBot] using hs
    rcases hs2 with h | h
    · rw [h] at hf
      exact Option.noConfusion hf
    · rw [h] at hf
      have hc : f = constHandler true := by simpa [mkState] using hf.symm
      rw [hc]
      rfl
  · intro s hs f hf d
    have hs2 : s = mkState "S" none (some (constHandler true)) "" ∨
        s = mkState "T" (some (constHandler true)) (some (constHandler true)) "" := by
      simpa [mkBot] using hs
    rcases hs2 with h | h
    · rw [h] at hf
      have hc : f = constHandler true := by simpa [mkState] using hf.symm
      rw [hc]
      rfl
    · rw [h] at hf
      have hc : f = constHandler true := by simpa [mkState] using hf.symm
      rw [hc]
      rfl

theorem demoBot_handlers (P : Handler → Prop) (h : P (constHandler true)) :
    ∀ s ∈ demoBot.States, ∀ f, (s.Executes = some f ∨ s.Callback = some f) → P f := by
  intro s hs f hf
  have hs2 : s = mkState "S" (some (constHandler true)) (some (constHandler true)) "" ∨
      s = mkState "T" (some (constHandler true)) none "S" := by
    simpa [demoBot, mkBot] using hs
  have hc : f = constHandler true := by
    rcases hs2 with h2 | h2 <;> rw [h2] at hf <;> simpa [mkState, eq_comm] using hf
  rw [hc]
  exact h

theorem demoBot_unique : UniqueNames demoBot.States := by
  simp [UniqueNames, demoBot, mkBot, mkState]

theorem runExecutes_stateWithCallback_at (b : Bot) (T : State) (act : Handler)
    (hkeep : (act b.Data).2.GetField "state_with_callback"
      = b.Data.GetField "state_with_callback") :
    (runExecutes b T act).2.stateWithCallback = b.stateWithCallback := by
  unfold runExecutes
  dsimp only
  split
  · exact (getField_setData_other (act b.Data).2 "current_state" T.Next "state_with_callback"
      _ (by decide)).trans hkeep
  · exact hkeep

theorem executeGated_stateWithCallback_of_no_callback (b : Bot) (T : State) (act : Handler)
    (hnocb : T.Callback = none)
    (hkact : (act (executeCallback b).2.Data).2.GetField "state_with_callback"
      = (executeCallback b).2.Data.GetField "state_with_callback") :
    (executeGated b T act).2.stateWithCallback = (executeCallback b).2.stateWithCallback := by
  rw [executeGated_eq]
  by_cases hg : (executeCallback b).1.1 = false
  · rw [if_pos hg]
  · rw [if_neg hg, armCallback_of_no_callback _ T hnocb]
    exact runExecutes_stateWithCallback_at _ T act hkact

/-- C19, as stated, fails: the callback of `S` is pending and returns `true` during an
`ExecuteState` call for `T`, and it is pending still after the call; but the next
`ExecuteState` call, for a name that matches no state, returns the `UnknownState`
error and invokes nothing: the callback of `S` is not invoked again on it. -/
theorem executeState_pending_not_reinvoked :
    (ExecuteState demoBot "T").1 = (true, none) ∧
    (ExecuteState demoBot "T").2.Log
      = [Event.callback "S" (BotData.mk "u" [("state_with_callback", "S"),
            ("current_state", "T")]),
         Event.action "T" (BotData.mk "u" [("state_with_callback", "S"),
            ("current_state", "T")])] ∧
    (ExecuteState demoBot "T").2.stateWithCallback = "S" ∧
    ExecuteState (ExecuteState demoBot "T").2 "nowhere"
      = ((false, some (UnknownState "nowhere")), (ExecuteState demoBot "T").2) := by
  refine ⟨rfl, rfl, rfl, rfl⟩

/-- C19, amended: `ExecuteState` itself never clears or disarms a pending callback.  For
every defined state `T` that has an action but no callback, `ExecuteState` of `T`
leaves `state_with_callback` exactly as it was, unless the invoked callback or the
action writes it (the gate and the action each leave the field as they found it);
so when a callback of `S` was pending it is pending still, and it is the first
function invoked again on the next `ExecuteState` call that requests a defined
state with an action, the user being still selected and the persistence layer
reporting no failure. -/
theorem executeState_keeps_pending (b : Bot) (T : State) (act : Handler)
    (hu : UniqueNames b.States) (hT : T ∈ b.States)
    (hact : T.Executes = some act) (hnocb : T.Callback = none)
    (hkcb : (executeCallback (b.SetCurrentState T.Name).2).2.stateWithCallback
      = (b.SetCurrentState T.Name).2.stateWithCallback)
    (hkact : (act (executeCallback (b.SetCurrentState T.Name).2).2.Data).2.GetField
        "state_with_callback"
      = (executeCallback (b.SetCurrentState T.Name).2).2.Data.GetField "state_with_callback") :
    (ExecuteState b T.Name).2.stateWithCallback = b.stateWithCallback ∧
    ∀ S cb T2 act2, S ∈ b.States → S.Callback = some cb → S.Name ≠ "" →
      b.stateWithCallback = S.Name → T2 ∈ b.States → T2.Executes = some act2 →
      b.Healthy → (ExecuteState b T.Name).2.Data.UserID ≠ "" →
      ∃ seen rest, (ExecuteState (ExecuteState b T.Name).2 T2.Name).2.Log
        = (ExecuteState b T.Name).2.Log ++ Event.callback S.Name seen :: rest := by
  have hkeep : (ExecuteState b T.Name).2.stateWithCallback = b.stateWithCallback := by
    rw [executeState_unique b T hu hT]
    rcases executeMatched_cases b T with ⟨e, he⟩ | ⟨act2, hact2, _, hg⟩
    · rw [he]
    · have hsame : act2 = act := Option.some.inj (hact2.symm.trans hact)
      rw [hg, hsame, executeGated_stateWithCallback_of_no_callback _ T act hnocb hkact, hkcb]
      exact setCurrentState_stateWithCallback b T.Name
  refine ⟨hkeep, ?_⟩
  intro S cb T2 act2 hS hcb hname hswc hT2 hact2 hhealthy huser
  have hst := executeState_states b T.Name
  have hh1 := executeState_healthy b T.Name hhealthy
  have hh2 : ((ExecuteState b T.Name).2.SetCurrentState T2.Name).2.Healthy :=
    healthy_of_faults_tail _ _ hh1 rfl
  obtain ⟨rest, h⟩ := executeState_log_pending (ExecuteState b T.Name).2 S T2 cb act2
    (by rw [hst]; exact hu) (by rw [hst]; exact hS) (by rw [hst]; exact hT2) hcb hname hact2
    huser (healthy_answer _ hh2) (hkeep.trans hswc)
  exact ⟨_, rest, h⟩

theorem executeState_keeps_pending_witness :
    (ExecuteState demoBot (mkState "T" (some (constHandler true)) none "S").Name
      ).2.stateWithCallback = demoBot.stateWithCallback ∧
    ∃ seen rest,
      (ExecuteState (ExecuteState demoBot (mkState "T" (some (constHandler true)) none "S").Name).2
        (mkState "T" (some (constHandler true)) none "S").Name).2.Log
      = (ExecuteState demoBot (mkState "T" (some (constHandler true)) none "S").Name).2.Log
        ++ Event.callback (mkState "S" (some (constHandler true)) (some (constHandler true))
            "").Name seen :: rest := by
  have h := executeState_keeps_pending demoBot (mkState "T" (some (constHandler true)) none "S")
    (constHandler true) demoBot_unique (by simp [demoBot, mkBot]) rfl rfl rfl rfl
  exact ⟨h.1, h.2 (mkState "S" (some (constHandler true)) (some (constHandler true)) "")
    (constHandler true) (mkState "T" (some (constHandler true)) none "S") (constHandler true)
    (by simp [demoBot, mkBot]) rfl (by simp [mkState]) rfl (by simp [demoBot, mkBot]) rfl
    (by simp [Bot.Healthy, demoBot, mkBot]) (by decide)⟩

theorem executeGated_currentState (b : Bot) (T : State) (act : Handler) (n0 : String)
    (hhealthy : b.Healthy) (hcs : b.currentState = n0)
    (hkact : KeepsCurrentState act)
    (hkcb : ∀ s ∈ b.States, ∀ f, s.Callback = some f → KeepsCurrentState f)
    (hnil : (executeGated b T act).1.2 = none) :
    (executeGated b T act).2.currentState = n0 ∨
    (T.Next ≠ "" ∧ (executeGated b T act).2.currentState = T.Next) := by
  have hc1 : (executeCallback b).2.currentState = n0 :=
    (executeCallback_currentState b hkcb).trans hcs
  have hh2 := armCallback_healthy _ T (executeCallback_healthy b hhealthy)
  rw [executeGated_eq] at hnil ⊢
  by_cases hg : (executeCallback b).1.1 = false
  · rw [if_pos hg]
    exact Or.inl hc1
  · rw [if_neg hg] at hnil ⊢
    cases harm : (armCallback (executeCallback b).2 T).1 with
    | some err =>
      simp only [harm] at hnil
      exact Option.noConfusion hnil
    | none =>
      simp only []
      by_cases hcond : (act (armCallback (executeCallback b).2 T).2.Data).1 = true ∧ T.Next ≠ ""
      · exact Or.inr ⟨hcond.2,
          runExecutes_currentState_next _ T act (healthy_answer _ hh2) hcond.1 hcond.2⟩
      · have hstay : (act (armCallback (executeCallback b).2 T).2.Data).1 = false ∨ T.Next = "" := by
          by_cases hn : T.Next = ""
          · exact Or.inr hn
          · refine Or.inl ?_
            cases hr : (act (armCallback (executeCallback b).2 T).2.Data).1 with
            | false => rfl
            | true => exact absurd ⟨hr, hn⟩ hcond
        refine Or.inl ?_
        rw [runExecutes_currentState_stay _ T act (hkact _) hstay, armCallback_currentState]
        exact hc1

/-- The invariant on `current_state` when the persistence layer reports no failure: if
every non-empty `Next` of the collection names a state present in the collection,
then after any `ExecuteState` call that returns a nil error, the actions and
callbacks not writing `current_state` themselves, `current_state` names a state
present in the collection: it is either the requested name or the `Next` of the
requested state. -/
theorem executeState_current_state_defined (b : Bot) (name : String)
    (hnext : NextClosed b.States) (hhealthy : b.Healthy)
    (hact : ∀ s ∈ b.States, ∀ f, s.Executes = some f → KeepsCurrentState f)
    (hcb : ∀ s ∈ b.States, ∀ f, s.Callback = some f → KeepsCurrentState f)
    (hnil : (ExecuteState b name).1.2 = none) :
    (∃ t ∈ b.States, t.Name = (ExecuteState b name).2.currentState) ∧
    ((ExecuteState b name).2.currentState = name ∨
      ∃ s ∈ b.States, s.Name = name ∧ (ExecuteState b name).2.currentState = s.Next) := by
  rcases executeState_cases b name with ⟨e, he⟩ | ⟨T, hT, act, hn, hTact, _, hg⟩
  · rw [he] at hnil
    exact Option.noConfusion hnil
  · rw [hg] at hnil ⊢
    rcases executeGated_currentState (b.SetCurrentState T.Name).2 T act T.Name
      (healthy_of_faults_tail b _ hhealthy rfl)
      (setCurrentState_currentState b T.Name (healthy_answer b hhealthy))
      (hact T hT act hTact) hcb hnil with h | ⟨hne, h⟩
    · rw [h]
      exact ⟨⟨T, hT, rfl⟩, Or.inl hn⟩
    · rw [h]
      obtain ⟨t, ht, htn⟩ := hnext T hT hne
      exact ⟨⟨t, ht, htn⟩, Or.inr ⟨T, hT, hn, rfl⟩⟩

theorem executeState_current_state_defined_witness :
    (ExecuteState demoBot "T").1.2 = none ∧
    (∃ t ∈ demoBot.States, t.Name = (ExecuteState demoBot "T").2.currentState) ∧
    (ExecuteState demoBot "T").2.currentState = "S" := by
  refine ⟨rfl, (executeState_current_state_defined demoBot "T" ?_ (by decide)
    (fun s hs f hf => demoBot_handlers KeepsCurrentState (fun _ => rfl) s hs f (Or.inl hf))
    (fun s hs f hf => demoBot_handlers KeepsCurrentState (fun _ => rfl) s hs f (Or.inr hf))
    rfl).1, rfl⟩
  intro s hs hne
  have hs2 : s = mkState "S" (some (constHandler true)) (some (constHandler true)) "" ∨
      s = mkState "T" (some (constHandler true)) none "S" := by
    simpa [demoBot, mkBot] using hs
  rcases hs2 with h | h
  · rw [h] at hne
    exact absurd rfl hne
  · exact ⟨mkState "S" (some (constHandler true)) (some (constHandler true)) "",
      by simp [demoBot, mkBot], by rw [h]; rfl⟩

/-- C20, at the failing input: every non-empty `Next` of the collection names a state of
the collection and no handler writes `current_state`; the persistence layer
answers `SetCurrentState` with an error, which `ExecuteState` discards.  The call
returns `(true, nil)` and leaves the previous `current_state`, which names no
state of the collection and is neither the requested name nor its `Next`. -/
theorem executeState_stale_current_state :
    NextClosed ({ mkBot [mkState "T" (some (constHandler true)) none ""] "u"
        [("current_state", "gone")] with Faults := [some "store unavailable"] } : Bot).States ∧
    (ExecuteState { mkBot [mkState "T" (some (constHandler true)) none ""] "u"
        [("current_state", "gone")] with Faults := [some "store unavailable"] } "T").1
      = (true, none) ∧
    (ExecuteState { mkBot [mkState "T" (some (constHandler true)) none ""] "u"
        [("current_state", "gone")] with Faults := [some "store unavailable"] }
      "T").2.currentState = "gone" ∧
    ¬ ∃ t ∈ ({ mkBot [mkState "T" (some (constHandler true)) none ""] "u"
        [("current_state", "gone")] with Faults := [some "store unavailable"] } : Bot).States,
      t.Name = "gone" := by
  refine ⟨?_, rfl, rfl, ?_⟩
  · intro s hs hne
    have hs2 : s = mkState "T" (some (constHandler true)) none "" := by simpa [mkBot] using hs
    rw [hs2] at hne
    exact absurd rfl hne
  · rintro ⟨t, ht, hn⟩
    have ht2 : t = mkState "T" (some (constHandler true)) none "" := by simpa [mkBot] using ht
    rw [ht2] at hn
    exact absurd hn (by decide)

/-! ## A pending name without a callback -/

theorem executeCallback_dangling (b : Bot)
    (hd : ∀ s ∈ b.States, s.Name = b.stateWithCallback → s.Callback = none) :
    executeCallback b = ((true, none), { b with Faults := b.Faults.tail }) := by
  rcases executeCallback_cases b with h | ⟨s, hs, cb, hc, _, hn, _, _⟩
  · exact h
  · rw [hd s hs hn] at hc
    exact Option.noConfusion hc

theorem agree_setData (d d0 : BotData) (k v : String) (o : Option Error)
    (h : AgreeOffCallback d d0) :
    AgreeOffCallback (d.SetData [(k, v)] o).2 (d0.SetData [(k, v)] o).2 := by
  cases o with
  | some e => exact h
  | none =>
    refine ⟨h.1, ?_⟩
    intro key hkey
    by_cases hk : k = key
    · subst hk
      rw [getField_setData_same, getField_setData_same]
    · rw [getField_setData_other d k v key none hk, getField_setData_other d0 k v key none hk]
      exact h.2 key hkey

theorem agree_currentState (d d0 : BotData) (h : AgreeOffCallback d d0) :
    d.GetCurrentState = d0.GetCurrentState :=
  h.2 "current_state" (by decide)

theorem similar_answer (b b0 : Bot) (h : Similar b b0) : b.answer = b0.answer := by
  unfold Bot.answer
  rw [h.2.1]

theorem similar_setCurrentState (b b0 : Bot) (name : String) (h : Similar b b0) :
    Similar (b.SetCurrentState name).2 (b0.SetCurrentState name).2 := by
  refine ⟨h.1, ?_, h.2.2.1, ?_⟩
  · show b.Faults.tail = b0.Faults.tail
    rw [h.2.1]
  · show AgreeOffCallback (b.Data.SetData [("current_state", name)] b.answer).2
      (b0.Data.SetData [("current_state", name)] b0.answer).2
    rw [← similar_answer b b0 h]
    exact agree_setData _ _ _ _ _ h.2.2.2

theorem similar_dropAnswer (b b0 : Bot) (h : Similar b b0) :
    Similar { b with Faults := b.Faults.tail } { b0 with Faults := b0.Faults.tail } := by
  refine ⟨h.1, ?_, h.2.2.1, h.2.2.2⟩
  show b.Faults.tail = b0.Faults.tail
  rw [h.2.1]

theorem similar_armCallback (b b0 : Bot) (T : State) (h : Similar b b0) :
    (armCallback b T).1 = (armCallback b0 T).1 ∧
    Similar (armCallback b T).2 (armCallback b0 T).2 := by
  unfold armCallback
  cases T.Callback with
  | none => exact ⟨rfl, h⟩
  | some cb =>
    constructor
    · show (b.Data.SetData [("state_with_callback", T.Name)] b.answer).1
        = (b0.Data.SetData [("state_with_callback", T.Name)] b0.answer).1
      rw [setData_fst, setData_fst, similar_answer b b0 h]
    · refine ⟨h.1, ?_, h.2.2.1, ?_⟩
      · show b.Faults.tail = b0.Faults.tail
        rw [h.2.1]
      · show AgreeOffCallback (b.Data.SetData [("state_with_callback", T.Name)] b.answer).2
          (b0.Data.SetData [("state_with_callback", T.Name)] b0.answer).2
        rw [← similar_answer b b0 h]
        exact agree_setData _ _ _ _ _ h.2.2.2

theorem similar_call (b b0 : Bot) (name : String) (act : Handler) (h : Similar b b0)
    (hact : IgnoresStateWithCallback act) :
    (b.call act (Event.action name)).1 = (b0.call act (Event.action name)).1 ∧
    Similar (b.call act (Event.action name)).2 (b0.call act (Event.action name)).2 := by
  obtain ⟨h1, h2⟩ := hact b.Data b0.Data h.2.2.2
  refine ⟨h1, h.1, h.2.1, ?_, h2⟩
  show (b.Log ++ [Event.action name b.Data]).map Event.label
    = (b0.Log ++ [Event.action name b0.Data]).map Event.label
  rw [List.map_append, List.map_append, h.2.2.1]
  rfl

theorem similar_runExecutes (b b0 : Bot) (T : State) (act : Handler) (h : Similar b b0)
    (hact : IgnoresStateWithCallback act) :
    (runExecutes b T act).1 = (runExecutes b0 T act).1 ∧
    Similar (runExecutes b T act).2 (runExecutes b0 T act).2 := by
  obtain ⟨h1, h2⟩ := similar_call b b0 T.Name act h hact
  unfold runExecutes
  dsimp only
  rw [← h1]
  split
  · exact ⟨rfl, similar_setCurrentState _ _ T.Next h2⟩
  · exact ⟨rfl, h2⟩

theorem similar_clearPending (b : Bot) : Similar b b.clearPending := by
  refine ⟨rfl, rfl, rfl, rfl, ?_⟩
  intro key hkey
  exact (lookup_assign_other b.Data.Current "state_with_callback" "" key
    (fun h => hkey h.symm)).symm

theorem clearPending_stateWithCallback (b : Bot) : b.clearPending.stateWithCallback = "" :=
  lookup_assign_same b.Data.Current "state_with_callback" ""

theorem executeGated_of_gate (b : Bot) (T : State) (act : Handler)
    (hgate : executeCallback b = ((true, none), { b with Faults := b.Faults.tail })) :
    executeGated b T act =
      match (armCallback { b with Faults := b.Faults.tail } T).1 with
      | some err => ((false, some err), (armCallback { b with Faults := b.Faults.tail } T).2)
      | none => runExecutes (armCallback { b with Faults := b.Faults.tail } T).2 T act := by
  rw [executeGated_eq, hgate]
  simp

theorem similar_executeGated (b b0 : Bot) (T : State) (act : Handler) (h : Similar b b0)
    (hact : IgnoresStateWithCallback act)
    (hg : executeCallback b = ((true, none), { b with Faults := b.Faults.tail }))
    (hg0 : executeCallback b0 = ((true, none), { b0 with Faults := b0.Faults.tail })) :
    (executeGated b T act).1 = (executeGated b0 T act).1 ∧
    Similar (executeGated b T act).2 (executeGated b0 T act).2 := by
  obtain ⟨ha1, ha2⟩ := similar_armCallback _ _ T (similar_dropAnswer b b0 h)
  rw [executeGated_of_gate b T act hg, executeGated_of_gate b0 T act hg0, ← ha1]
  cases harm : (armCallback { b with Faults := b.Faults.tail } T).1 with
  | some err => exact ⟨rfl, ha2⟩
  | none => exact similar_runExecutes _ _ T act ha2 hact

theorem executeStateLoop_find (b : Bot) (name : String) (l : List State) :
    executeStateLoop b name l =
      match l.find? (fun s => decide (s.Name = name)) with
      | some T => executeMatched b T
      | none => ((false, some (UnknownState name)), b) := by
  induction l with
  | nil => rfl
  | cons s rest ih =>
    by_cases hs : s.Name = name
    · simp [executeStateLoop, List.find?, hs]
    · simp [executeStateLoop, List.find?, hs, ih]

theorem similar_executeState_clearPending (b : Bot) (name : String)
    (hd : ∀ s ∈ b.States, s.Name = b.stateWithCallback → s.Callback = none)
    (hact : ∀ T ∈ b.States, T.Name = name → ∀ act, T.Executes = some act →
      IgnoresStateWithCallback act) :
    (ExecuteState b name).1 = (ExecuteState b.clearPending name).1 ∧
    Similar (ExecuteState b name).2 (ExecuteState b.clearPending name).2 := by
  have hsim := similar_clearPending b
  have hst : b.clearPending.States = b.States := rfl
  rw [ExecuteState, ExecuteState, hst, executeStateLoop_find b name b.States,
    executeStateLoop_find b.clearPending name b.States]
  cases hfind : b.States.find? (fun s => decide (s.Name = name)) with
  | none => exact ⟨rfl, hsim⟩
  | some T =>
    have hT : T ∈ b.States := List.mem_of_find?_eq_some hfind
    have hname : T.Name = name := by
      have h := List.find?_some hfind
      simpa using h
    simp only []
    by_cases huser : b.Data.UserID = ""
    · have huser0 : b.clearPending.Data.UserID = "" := huser
      rw [executeMatched, executeMatched, if_pos huser, if_pos huser0]
      exact ⟨rfl, hsim⟩
    · have huser0 : b.clearPending.Data.UserID ≠ "" := huser
      cases hTact : T.Executes with
      | none =>
        rw [executeMatched, executeMatched, if_neg huser, if_neg huser0, hTact]
        exact ⟨rfl, hsim⟩
      | some act =>
        rw [executeMatched_eq_gated b T act huser hTact,
          executeMatched_eq_gated b.clearPending T act huser0 hTact]
        refine similar_executeGated _ _ T act (similar_setCurrentState _ _ T.Name hsim)
          (hact T hT hname act hTact) ?_ ?_
        · apply executeCallback_dangling
          intro s hs hn
          exact hd s hs (hn.trans (setCurrentState_stateWithCallback b T.Name))
        · apply executeCallback_none_pending
          exact (setCurrentState_stateWithCallback b.clearPending T.Name).trans
            (clearPending_stateWithCallback b)

/-- C16, as stated, fails: an action receives the bot and can read `state_with_callback`.
With a stored name that names no state of the collection the gate passes without
invoking any callback, but the action that looks at the field returns `false`,
while on the same store with `state_with_callback` empty it returns `true`: the
return value is not the same as if the field had been empty. -/
theorem executeState_dangling_action_reads_pending :
    (mkBot [mkState "T" (some pendingFreeHandler) none ""] "u"
      [("state_with_callback", "ghost")]).stateWithCallback = "ghost" ∧
    (∀ s ∈ (mkBot [mkState "T" (some pendingFreeHandler) none ""] "u"
      [("state_with_callback", "ghost")]).States, s.Name ≠ "ghost") ∧
    (ExecuteState (mkBot [mkState "T" (some pendingFreeHandler) none ""] "u"
      [("state_with_callback", "ghost")]) "T").1 = (false, none) ∧
    (ExecuteState (mkBot [mkState "T" (some pendingFreeHandler) none ""] "u"
      [("state_with_callback", "ghost")]) "T").2.Log
      = [Event.action "T" (BotData.mk "u" [("state_with_callback", "ghost"),
          ("current_state", "T")])] ∧
    (mkBot [mkState "T" (some pendingFreeHandler) none ""] "u"
      [("state_with_callback", "ghost")]).clearPending.stateWithCallback = "" ∧
    (ExecuteState (mkBot [mkState "T" (some pendingFreeHandler) none ""] "u"
      [("state_with_callback", "ghost")]).clearPending "T").1 = (true, none) := by
  refine ⟨rfl, ?_, rfl, rfl, rfl, rfl⟩
  intro s hs
  have hs2 : s = mkState "T" (some pendingFreeHandler) none "" := by simpa [mkBot] using hs
  rw [hs2]
  decide

/-- C16, amended: for every `ExecuteState` call whose stored `state_with_callback` names
no state of the collection, or only states that have no callback, the gate
passes without invoking any callback: `executeCallback` returns `(true, nil)` and
leaves the user data and the log as it found them; no callback is invoked during
the call, and when the call returns a nil error the action of the requested state
is the one function invoked and the call returns its boolean.  And when the
action of the requested state does not read `state_with_callback`, the outcome is
the same as if the field had been empty: the same boolean and error, the same
functions invoked and the same final `current_state` as for the call on the bot
with `state_with_callback` emptied. -/
theorem executeState_dangling_pending (b : Bot) (name : String)
    (hd : ∀ s ∈ b.States, s.Name = b.stateWithCallback → s.Callback = none) :
    executeCallback (b.SetCurrentState name).2
      = ((true, none), { (b.SetCurrentState name).2 with
          Faults := (b.SetCurrentState name).2.Faults.tail }) ∧
    (∃ rest, (ExecuteState b name).2.Log = b.Log ++ rest ∧
      ∀ ev ∈ rest, ev.label = (true, name)) ∧
    ((ExecuteState b name).1.2 = none →
      ∃ T ∈ b.States, ∃ act seen, T.Name = name ∧ T.Executes = some act ∧
        (ExecuteState b name).2.Log = b.Log ++ [Event.action name seen] ∧
        (ExecuteState b name).1 = ((act seen).1, none)) ∧
    ((∀ T ∈ b.States, T.Name = name → ∀ act, T.Executes = some act →
        IgnoresStateWithCallback act) →
      (ExecuteState b name).1 = (ExecuteState b.clearPending name).1 ∧
      (ExecuteState b name).2.Log.map Event.label
        = (ExecuteState b.clearPending name).2.Log.map Event.label ∧
      (ExecuteState b name).2.currentState
        = (ExecuteState b.clearPending name).2.currentState) := by
  have hgate : ∀ n, executeCallback (b.SetCurrentState n).2
      = ((true, none), { (b.SetCurrentState n).2 with
          Faults := (b.SetCurrentState n).2.Faults.tail }) := by
    intro n
    apply executeCallback_dangling
    intro s hs hsn
    exact hd s hs (hsn.trans (setCurrentState_stateWithCallback b n))
  have hlog : ∀ n, (executeCallback (b.SetCurrentState n).2).2.Log = b.Log := by
    intro n
    rw [hgate n]
    rfl
  have hpass : ∀ n, (executeCallback (b.SetCurrentState n).2).1.1 = true := by
    intro n
    rw [hgate n]
  refine ⟨hgate name, ?_, ?_, ?_⟩
  · rcases executeState_cases b name with ⟨e, he⟩ | ⟨T, _, act, hn, _, _, hg⟩
    · exact ⟨[], by rw [he, List.append_nil], fun ev hev => absurd hev (List.not_mem_nil ev)⟩
    · rw [hg]
      rcases executeGated_log (b.SetCurrentState T.Name).2 T act with h | h
      · exact ⟨[], by rw [h, hlog, List.append_nil],
          fun ev hev => absurd hev (List.not_mem_nil ev)⟩
      · refine ⟨_, by rw [h, hlog], ?_⟩
        intro ev hev
        rw [List.mem_singleton] at hev
        rw [hev, ← hn]
        rfl
  · intro hnil
    rcases executeState_cases b name with ⟨e, he⟩ | ⟨T, hT, act, hn, hTact, _, hg⟩
    · rw [he] at hnil
      exact Option.noConfusion hnil
    · have harm : (armCallback (executeCallback (b.SetCurrentState T.Name).2).2 T).1 = none := by
        cases h : (armCallback (executeCallback (b.SetCurrentState T.Name).2).2 T).1 with
        | none => rfl
        | some err =>
          rw [hg, executeGated_eq, if_neg (by simp [hpass])] at hnil
          simp only [h] at hnil
          exact Option.noConfusion hnil
      have hrun := executeGated_pass _ T act (hpass T.Name) harm
      exact ⟨T, hT, act, (armCallback (executeCallback (b.SetCurrentState T.Name).2).2 T).2.Data,
        hn, hTact, by rw [hg, hrun, runExecutes_log, armCallback_log, hlog, hn],
        by rw [hg, hrun, runExecutes_fst]⟩
  · intro hact
    obtain ⟨h1, h2⟩ := similar_executeState_clearPending b name hd hact
    exact ⟨h1, h2.2.2.1, agree_currentState _ _ h2.2.2.2⟩

theorem executeState_dangling_pending_witness :
    (ExecuteState (mkBot [mkState "bare" none none "",
        mkState "T" (some (constHandler true)) none "U"] "u"
        [("state_with_callback", "bare")]) "T").1
      = (ExecuteState (mkBot [mkState "bare" none none "",
        mkState "T" (some (constHandler true)) none "U"] "u"
        [("state_with_callback", "bare")]).clearPending "T").1 ∧
    (ExecuteState (mkBot [mkState "bare" none none "",
        mkState "T" (some (constHandler true)) none "U"] "u"
        [("state_with_callback", "bare")]) "T").2.currentState
      = (ExecuteState (mkBot [mkState "bare" none none "",
        mkState "T" (some (constHandler true)) none "U"] "u"
        [("state_with_callback", "bare")]).clearPending "T").2.currentState := by
  have hstates : ∀ s ∈ (mkBot [mkState "bare" none none "",
      mkState "T" (some (constHandler true)) none "U"] "u"
      [("state_with_callback", "bare")]).States,
      s = mkState "bare" none none "" ∨ s = mkState "T" (some (constHandler true)) none "U" := by
    intro s hs
    simpa [mkBot] using hs
  have h := (executeState_dangling_pending
    (mkBot [mkState "bare" none none "", mkState "T" (some (constHandler true)) none "U"] "u"
      [("state_with_callback", "bare")]) "T"
    (by
      intro s hs _
      rcases hstates s hs with h | h <;> rw [h] <;> rfl)).2.2.2
    (by
      intro s hs _ f hf
      have hc : f = constHandler true := by
        rcases hstates s hs with h | h
        · rw [h] at hf
          exact Option.noConfusion hf
        · rw [h] at hf
          simpa [mkState, eq_comm] using hf
      rw [hc]
      exact fun d d0 hagree => ⟨rfl, hagree⟩)
  exact ⟨h.1, h.2.2⟩

/-! ## The order of the state collection -/

theorem uniqueNames_cons (s : State) (l : List State) (h : UniqueNames (s :: l)) :
    (∀ t ∈ l, s.Name ≠ t.Name) ∧ UniqueNames l := by
  have h2 : s.Name ∉ l.map State.Name ∧ UniqueNames l := by
    simpa [UniqueNames] using h
  exact ⟨fun t ht heq => h2.1 (heq ▸ List.mem_map_of_mem State.Name ht), h2.2⟩

theorem uniqueNames_perm (l l2 : List State) (hp : l.Perm l2) (h : UniqueNames l) :
    UniqueNames l2 :=
  ((hp.map State.Name).nodup_iff).mp h

theorem executeCallbackFromStateLoop_perm (b : Bot) (name : String) (l l2 : List State)
    (hp : l.Perm l2) (hu : UniqueNames l) :
    executeCallbackFromStateLoop b name l = executeCallbackFromStateLoop b name l2 := by
  induction hp with
  | nil => rfl
  | cons x _ ih =>
    have hrest := ih (uniqueNames_cons x _ hu).2
    simp only [executeCallbackFromStateLoop, hrest]
  | swap x y l =>
    have hne : y.Name ≠ x.Name :=
      (uniqueNames_cons y (x :: l) hu).1 x (List.mem_cons_self x l)
    by_cases hx : x.Name = name
    · have hy : y.Name ≠ name := fun h => hne (h.trans hx.symm)
      cases hc : x.Callback <;> simp [executeCallbackFromStateLoop, hx, hy, hc]
    · by_cases hy : y.Name = name
      · cases hc : y.Callback <;> simp [executeCallbackFromStateLoop, hx, hy, hc]
      · simp [executeCallbackFromStateLoop, hx, hy]
  | trans h1 _ ih1 ih2 => exact (ih1 hu).trans (ih2 (uniqueNames_perm _ _ h1 hu))

theorem executeStateLoop_perm (b : Bot) (name : String) (l l2 : List State)
    (hp : l.Perm l2) (hu : UniqueNames l) :
    executeStateLoop b name l = executeStateLoop b name l2 := by
  induction hp with
  | nil => rfl
  | cons x _ ih =>
    have hrest := ih (uniqueNames_cons x _ hu).2
    simp only [executeStateLoop, hrest]
  | swap x y l =>
    have hne : y.Name ≠ x.Name :=
      (uniqueNames_cons y (x :: l) hu).1 x (List.mem_cons_self x l)
    by_cases hx : x.Name = name
    · have hy : y.Name ≠ name := fun h => hne (h.trans hx.symm)
      simp [executeStateLoop, hx, hy]
    · by_cases hy : y.Name = name
      · simp [executeStateLoop, hx, hy]
      · simp [executeStateLoop, hx, hy]
  | trans h1 _ ih1 ih2 => exact (ih1 hu).trans (ih2 (uniqueNames_perm _ _ h1 hu))

theorem executeCallbackFromStateLoop_withStates (b : Bot) (name : String)
    (states l : List State) :
    executeCallbackFromStateLoop (b.withStates states) name l
      = ((executeCallbackFromStateLoop b name l).1,
         (executeCallbackFromStateLoop b name l).2.withStates states) := by
  induction l with
  | nil => rfl
  | cons s rest ih =>
    by_cases hs : s.Name = name
    · cases hc : s.Callback with
      | none => simp only [executeCallbackFromStateLoop, hs, hc, if_true, ih]
      | some cb =>
        simp only [executeCallbackFromStateLoop, hs, hc, if_true]
        rfl
    · simp only [executeCallbackFromStateLoop, hs, if_false, ih]

theorem executeCallback_withStates (b : Bot) (states : List State)
    (hu : UniqueNames b.States) (hp : b.States.Perm states) :
    executeCallback (b.withStates states)
      = ((executeCallback b).1, (executeCallback b).2.withStates states) := by
  have hloop : ∀ name : String, executeCallbackFromStateLoop
        (({ b with Faults := b.Faults.tail } : Bot).withStates states) name states
      = ((executeCallbackFromStateLoop { b with Faults := b.Faults.tail } name b.States).1,
         (executeCallbackFromStateLoop { b with Faults := b.Faults.tail } name
            b.States).2.withStates states) := by
    intro name
    rw [executeCallbackFromStateLoop_withStates,
      executeCallbackFromStateLoop_perm _ name b.States states hp hu]
  by_cases hg : (b.Data.GetStateWithCallback b.answer).1 = ""
  · have e1 : executeCallback (b.withStates states)
        = ((true, none), ({ b with Faults := b.Faults.tail } : Bot).withStates states) := by
      simp [executeCallback, Bot.GetStateWithCallback, Bot.withStates, Bot.answer] at hg ⊢
      intro h
      exact absurd hg h
    have e2 : executeCallback b = ((true, none), { b with Faults := b.Faults.tail }) := by
      simp [executeCallback, Bot.GetStateWithCallback, hg]
    rw [e1, e2]
  · have e1 : executeCallback (b.withStates states)
        = (((executeCallbackFromStateLoop
              (({ b with Faults := b.Faults.tail } : Bot).withStates states)
              (b.Data.GetStateWithCallback b.answer).1 states).1, none),
           (executeCallbackFromStateLoop
              (({ b with Faults := b.Faults.tail } : Bot).withStates states)
              (b.Data.GetStateWithCallback b.answer).1 states).2) := by
      have hg2 : ¬ ((b.withStates states).Data.GetStateWithCallback
          (b.withStates states).answer).1 = "" := hg
      unfold executeCallback
      dsimp only
      rw [if_pos (by exact hg2)]
      rfl
    have e2 : executeCallback b
        = (((executeCallbackFromStateLoop { b with Faults := b.Faults.tail }
              (b.Data.GetStateWithCallback b.answer).1 b.States).1, none),
           (executeCallbackFromStateLoop { b with Faults := b.Faults.tail }
              (b.Data.GetStateWithCallback b.answer).1 b.States).2) := by
      unfold executeCallback
      dsimp only
      rw [if_pos (by exact hg)]
      rfl
    rw [e1, e2, hloop]

theorem armCallback_withStates (b : Bot) (states : List State) (T : State) :
    armCallback (b.withStates states) T
      = ((armCallback b T).1, (armCallback b T).2.withStates states) := by
  unfold armCallback
  cases T.Callback <;> rfl

theorem runExecutes_withStates (b : Bot) (states : List State) (T : State) (act : Handler) :
    runExecutes (b.withStates states) T act
      = ((runExecutes b T act).1, (runExecutes b T act).2.withStates states) := by
  unfold runExecutes
  dsimp only
  have hc : ((b.withStates states).call act (Event.action T.Name)).1
      = (b.call act (Event.action T.Name)).1 := rfl
  rw [hc]
  split <;> rfl

theorem executeGated_withStates (b : Bot) (states : List State) (T : State) (act : Handler)
    (hu : UniqueNames b.States) (hp : b.States.Perm states) :
    executeGated (b.withStates states) T act
      = ((executeGated b T act).1, (executeGated b T act).2.withStates states) := by
  rw [executeGated_eq, executeGated_eq, executeCallback_withStates b states hu hp]
  dsimp only
  rw [armCallback_withStates]
  dsimp only
  by_cases hg : (executeCallback b).1.1 = false
  · rw [if_pos hg, if_pos hg]
  · rw [if_neg hg, if_neg hg]
    cases harm : (armCallback (executeCallback b).2 T).1 with
    | some err => rfl
    | none =>
      simp only []
      exact runExecutes_withStates _ states T act

theorem executeMatched_withStates (b : Bot) (states : List State) (T : State)
    (hu : UniqueNames b.States) (hp : b.States.Perm states) :
    executeMatched (b.withStates states) T
      = ((executeMatched b T).1, (executeMatched b T).2.withStates states) := by
  by_cases huser : b.Data.UserID = ""
  · have huser2 : (b.withStates states).Data.UserID = "" := huser
    rw [executeMatched, executeMatched, if_pos huser, if_pos huser2]
  · have huser2 : (b.withStates states).Data.UserID ≠ "" := huser
    cases hact : T.Executes with
    | none => rw [executeMatched, executeMatched, if_neg huser, if_neg huser2, hact]
    | some act =>
      rw [executeMatched_eq_gated b T act huser hact,
        executeMatched_eq_gated (b.withStates states) T act huser2 hact]
      exact executeGated_withStates (b.SetCurrentState T.Name).2 states T act hu hp

theorem executeStateLoop_withStates (b : Bot) (states : List State) (name : String)
    (l : List State) (hu : UniqueNames b.States) (hp : b.States.Perm states) :
    executeStateLoop (b.withStates states) name l
      = ((executeStateLoop b name l).1, (executeStateLoop b name l).2.withStates states) := by
  induction l with
  | nil => rfl
  | cons s rest ih =>
    by_cases hs : s.Name = name
    · simp only [executeStateLoop, hs, if_true]
      exact executeMatched_withStates b states s hu hp
    · simp only [executeStateLoop, hs, if_false, ih]

theorem executeState_withStates (b : Bot) (states : List State) (name : String)
    (hu : UniqueNames b.States) (hp : b.States.Perm states) :
    ExecuteState (b.withStates states) name
      = ((ExecuteState b name).1, (ExecuteState b name).2.withStates states) := by
  have h1 : ExecuteState (b.withStates states) name
      = executeStateLoop (b.withStates states) name states := rfl
  rw [h1, ← executeStateLoop_perm (b.withStates states) name b.States states hp hu,
    executeStateLoop_withStates b states name b.States hu hp]
  rfl

/-- C15: the semantics of the state lookup do not depend on the order in which the
collection is scanned.  For every bot whose state collection has unique names,
every permutation of the collection, every store, fault schedule and name,
`ExecuteState` over the permuted collection returns the same boolean and error
as over the original one, leaves the same user data and the same fault schedule,
and invokes the same functions on the same user data. -/
theorem executeState_perm (b : Bot) (states : List State) (name : String)
    (hu : UniqueNames b.States) (hp : b.States.Perm states) :
    (ExecuteState (b.withStates states) name).1 = (ExecuteState b name).1 ∧
    (ExecuteState (b.withStates states) name).2.Data = (ExecuteState b name).2.Data ∧
    (ExecuteState (b.withStates states) name).2.Faults = (ExecuteState b name).2.Faults ∧
    (ExecuteState (b.withStates states) name).2.Log = (ExecuteState b name).2.Log := by
  rw [executeState_withStates b states name hu hp]
  exact ⟨rfl, rfl, rfl, rfl⟩

theorem executeState_perm_witness :
    (ExecuteState (demoBot.withStates [mkState "T" (some (constHandler true)) none "S",
        mkState "S" (some (constHandler true)) (some (constHandler true)) ""]) "T").1
      = (ExecuteState demoBot "T").1 ∧
    (ExecuteState (demoBot.withStates [mkState "T" (some (constHandler true)) none "S",
        mkState "S" (some (constHandler true)) (some (constHandler true)) ""]) "T").2.Data
      = (ExecuteState demoBot "T").2.Data :=
  ⟨(executeState_perm demoBot [mkState "T" (some (constHandler true)) none "S",
      mkState "S" (some (constHandler true)) (some (constHandler true)) ""] "T"
      demoBot_unique (List.Perm.swap _ _ [])).1,
   (executeState_perm demoBot [mkState "T" (some (constHandler true)) none "S",
      mkState "S" (some (constHandler true)) (some (constHandler true)) ""] "T"
      demoBot_unique (List.Perm.swap _ _ [])).2.1⟩

end Botstate
